import Mathlib

/-!
Verification development for the credential subsystem of the
firebase-admin-node repository (src/credential/credential.ts).

The file shallowly embeds the credential-resolution algorithm, the record
parsers, the token-exchange handling and the process-wide memoization
tables, faithfully to the JavaScript source, including JS truthiness and
property-access semantics where they matter.  External collaborators that
are not part of the repository source (the file-system read primitive,
the builtin JSON parser, the PEM key parser and the HTTP transport) are
passed in as explicit function parameters, and builtin JS operations
(property access, truthiness, JSON.stringify) are modelled directly.
-/

set_option maxHeartbeats 1000000

/-- Model of a JavaScript JSON value (the result of JSON.parse, or an
inline object literal handed to the credential constructors). -/
inductive Json where
  | null : Json
  | bool : Bool → Json
  | num : Int → Json
  | str : String → Json
  | arr : List Json → Json
  | obj : List (String × Json) → Json

/-- JS truthiness of a JSON value: null, false, 0 and the empty string are
falsy; every object and array is truthy. -/
def truthy : Json → Bool
  | .null => false
  | .bool b => b
  | .num n => n != 0
  | .str s => s ≠ ""
  | .arr _ => true
  | .obj _ => true

/-- Truthiness of an optional value, where none models JS undefined. -/
def truthyO : Option Json → Bool
  | some j => truthy j
  | none => false

/-- First-match association-list lookup, the model of own-property lookup
on a JS object. -/
def lookupField : List (String × Json) → String → Option Json
  | [], _ => none
  | (k, v) :: rest, key => if k = key then some v else lookupField rest key

/-- JS property read on a value that is not null: objects look up the
field, every other non-null value yields undefined (none). -/
def jsGet : Json → String → Option Json
  | .obj fields, key => lookupField fields key
  | _, _ => none

/-- Error taxonomy as observed by callers of this module: FirebaseAppError
values carrying an error code, raw JS TypeErrors from property access on
null, HTTP errors from the transport collaborator, and generic errors. -/
inductive AppErrorCode where
  | invalidCredential

/-- A token-exchange HTTP response, modelled from the spec: status, raw
body text, and the parsed JSON body when the body is JSON-shaped. -/
structure HttpResponse where
  status : Nat
  text : String
  jsonBody : Option Json

inductive JsError where
  | firebase (code : AppErrorCode) (message : String)
  | typeError (message : String)
  | http (response : HttpResponse)
  | generic (message : String)

/-- The message property of a JS error value; for HTTP errors the message
is a placeholder because every call site matches the HTTP case first. -/
def messageOf : JsError → String
  | .firebase _ m => m
  | .typeError m => m
  | .http _ => "HTTP error"
  | .generic m => m

/-- True when the outcome is a FirebaseAppError with code
app/invalid-credential. -/
def isInvalidCredentialError {α : Type} : Except JsError α → Bool
  | .error (.firebase .invalidCredential _) => true
  | _ => false

/-- JS property read including the null case: reading any property of
null throws a TypeError. -/
def jsGetE (j : Json) (key : String) : Except JsError (Option Json) :=
  match j with
  | .null => .error (.typeError (("Cannot read properties of null reading ") ++ key))
  | j => .ok (jsGet j key)

/-- JS assignment of a field on an object: overwrite the first matching
key, otherwise append. -/
def setField : List (String × Json) → String → Json → List (String × Json)
  | [], key, v => [(key, v)]
  | (k, w) :: rest, key, v =>
    if k = key then (key, v) :: rest else (k, w) :: setField rest key v

/-- Modelled from the spec: the validator collaborator check that a value
is a non-empty string (util.isNonEmptyString), applied to a possibly
undefined property value. -/
def isNonEmptyString : Option Json → Bool
  | some (.str s) => s ≠ ""
  | _ => false

/-- Modelled from the spec: the validator collaborator check that a value
is a non-null object record (util.isNonNullObject). -/
def isNonNullObject : Json → Bool
  | .obj _ => true
  | _ => false

/-- Extract the string payload of a validated non-empty-string property. -/
def strOf : Option Json → String
  | some (.str s) => s
  | _ => ""

/-- The tmp expression of copyAttr, the JS disjunction from key-field or
alt-field on a non-null source: the canonical field when truthy,
otherwise the alternative field (possibly undefined). -/
def resolvedAttr (j : Json) (key alt : String) : Option Json :=
  if truthyO (jsGet j key) then jsGet j key else jsGet j alt

/-- Embedding of copyAttr (credential.ts lines 588 to 593): tmp is the
canonical field when truthy, otherwise the alternative field
(resolvedAttr); the target field is assigned only when tmp is defined.
Property access on a null source throws a TypeError, as in JS. -/
def copyAttr (to_ : List (String × Json)) (from_ : Json) (key alt : String) :
    Except JsError (List (String × Json)) :=
  match from_ with
  | .null => .error (.typeError (("Cannot read properties of null reading ") ++ key))
  | src =>
    match resolvedAttr src key alt with
    | some v => .ok (setField to_ key v)
    | none => .ok to_

/-- The external collaborators of the module: the file-system read
primitive (fs.readFileSync, returning text or a thrown-error message),
the builtin JSON parser, and the PEM private-key parser of the forge
collaborator (none on success, an error message on parse failure). -/
structure World where
  fs : String → Except String String
  parse : String → Except String Json
  pem : String → Option String

/-- A validated service-account record. -/
structure ServiceAccountRec where
  projectId : String
  privateKey : String
  clientEmail : String

/-- A validated refresh-token record. -/
structure RefreshTokenRec where
  clientId : String
  clientSecret : String
  refreshToken : String
  type : String

/-- The three credential kinds of the module. -/
inductive Credential where
  | serviceAccountCredential (record : ServiceAccountRec) (implicit : Bool)
  | refreshTokenCredential (record : RefreshTokenRec) (implicit : Bool)
  | computeEngineCredential (cachedProjectId : Option String)

/-- Embedding of the ServiceAccount constructor (credential.ts lines 365
to 399): object check, three copyAttr calls into a fresh object, then the
non-empty-string validations in source order, then the PEM key check. -/
def serviceAccountOfJson (pem : String → Option String) (json : Json) :
    Except JsError ServiceAccountRec :=
  if isNonNullObject json = false then
    .error (.firebase .invalidCredential ("Service account must be an object."))
  else do
    let t1 ← copyAttr [] json ("projectId") ("project_id")
    let t2 ← copyAttr t1 json ("privateKey") ("private_key")
    let t3 ← copyAttr t2 json ("clientEmail") ("client_email")
    if isNonEmptyString (lookupField t3 ("projectId")) = false then
      .error (.firebase .invalidCredential ("Service account object must contain a string \"project_id\" property."))
    else if isNonEmptyString (lookupField t3 ("privateKey")) = false then
      .error (.firebase .invalidCredential ("Service account object must contain a string \"private_key\" property."))
    else if isNonEmptyString (lookupField t3 ("clientEmail")) = false then
      .error (.firebase .invalidCredential ("Service account object must contain a string \"client_email\" property."))
    else
      match pem (strOf (lookupField t3 ("privateKey"))) with
      | some perr => .error (.firebase .invalidCredential (("Failed to parse private key: ") ++ perr))
      | none =>
        .ok { projectId := strOf (lookupField t3 ("projectId")),
              privateKey := strOf (lookupField t3 ("privateKey")),
              clientEmail := strOf (lookupField t3 ("clientEmail")) }

/-- Embedding of ServiceAccount.fromPath (lines 353 to 363): read, parse
and construct, wrapping every failure in one InvalidCredential error. -/
def serviceAccountFromPath (w : World) (filePath : String) :
    Except JsError ServiceAccountRec :=
  let attempt : Except JsError ServiceAccountRec := do
    let text ← (w.fs filePath).mapError (fun m => JsError.generic m)
    let json ← (w.parse text).mapError (fun m => JsError.generic m)
    serviceAccountOfJson w.pem json
  match attempt with
  | .ok r => .ok r
  | .error e =>
    .error (.firebase .invalidCredential (("Failed to parse service account json file: ") ++ messageOf e))

/-- Embedding of the ServiceAccountCredential constructor (lines 291 to
303): a string input is a file path, any other input is the record. -/
def serviceAccountCredentialOfInput (w : World) (input : Json) (implicit : Bool) :
    Except JsError Credential :=
  match input with
  | .str s => (serviceAccountFromPath w s).map (fun r => .serviceAccountCredential r implicit)
  | j => (serviceAccountOfJson w.pem j).map (fun r => .serviceAccountCredential r implicit)

/-- Embedding of the RefreshToken constructor (lines 524 to 544): four
copyAttr calls (with no preliminary object check), then the
non-empty-string validations in source order. -/
def refreshTokenOfJson (json : Json) : Except JsError RefreshTokenRec := do
  let t1 ← copyAttr [] json ("clientId") ("client_id")
  let t2 ← copyAttr t1 json ("clientSecret") ("client_secret")
  let t3 ← copyAttr t2 json ("refreshToken") ("refresh_token")
  let t4 ← copyAttr t3 json ("type") ("type")
  if isNonEmptyString (lookupField t4 ("clientId")) = false then
    .error (.firebase .invalidCredential ("Refresh token must contain a \"client_id\" property."))
  else if isNonEmptyString (lookupField t4 ("clientSecret")) = false then
    .error (.firebase .invalidCredential ("Refresh token must contain a \"client_secret\" property."))
  else if isNonEmptyString (lookupField t4 ("refreshToken")) = false then
    .error (.firebase .invalidCredential ("Refresh token must contain a \"refresh_token\" property."))
  else if isNonEmptyString (lookupField t4 ("type")) = false then
    .error (.firebase .invalidCredential ("Refresh token must contain a \"type\" property."))
  else
    .ok { clientId := strOf (lookupField t4 ("clientId")),
          clientSecret := strOf (lookupField t4 ("clientSecret")),
          refreshToken := strOf (lookupField t4 ("refreshToken")),
          type := strOf (lookupField t4 ("type")) }

/-- Embedding of RefreshToken.fromPath (lines 512 to 522): read, parse
and construct, wrapping every failure in one InvalidCredential error. -/
def refreshTokenFromPath (w : World) (filePath : String) :
    Except JsError RefreshTokenRec :=
  let attempt : Except JsError RefreshTokenRec := do
    let text ← (w.fs filePath).mapError (fun m => JsError.generic m)
    let json ← (w.parse text).mapError (fun m => JsError.generic m)
    refreshTokenOfJson json
  match attempt with
  | .ok r => .ok r
  | .error e =>
    .error (.firebase .invalidCredential (("Failed to parse refresh token file: ") ++ messageOf e))

/-- Embedding of the RefreshTokenCredential constructor (lines 471 to
480): a string input is a file path, any other input is the record. -/
def refreshTokenCredentialOfInput (w : World) (input : Json) (implicit : Bool) :
    Except JsError Credential :=
  match input with
  | .str s => (refreshTokenFromPath w s).map (fun r => .refreshTokenCredential r implicit)
  | j => (refreshTokenOfJson j).map (fun r => .refreshTokenCredential r implicit)

/-- The validity condition that the RefreshToken constructor enforces on
a non-null record: each of the four required fields, resolved with the
canonical-over-snake-case rule, is a non-empty string. -/
def rtFieldsOk (j : Json) : Bool :=
  isNonEmptyString (resolvedAttr j ("clientId") ("client_id")) &&
  isNonEmptyString (resolvedAttr j ("clientSecret") ("client_secret")) &&
  isNonEmptyString (resolvedAttr j ("refreshToken") ("refresh_token")) &&
  isNonEmptyString (resolvedAttr j ("type") ("type"))

/-- Left-brace character as a string, used by the JSON serializer. -/
def jsLBrace : String := String.singleton (Char.ofNat 123)

/-- Right-brace character as a string, used by the JSON serializer. -/
def jsRBrace : String := String.singleton (Char.ofNat 125)

/-- Escape one character for a JSON string literal. -/
def jsonEscapeChar (c : Char) : String :=
  if c = '"' then "\\\"" else if c = '\\' then "\\\\" else String.singleton c

/-- Quote a string as a JSON string literal. -/
def jsonQuote (s : String) : String :=
  "\"" ++ String.join (s.toList.map jsonEscapeChar) ++ "\""

mutual

/-- Model of the builtin JSON.stringify on JSON values, used as the
memoization key of the credential factories and in the
unexpected-response error message. -/
def jsonStringify : Json → String
  | .null => "null"
  | .bool b => cond b ("true") ("false")
  | .num n => toString n
  | .str s => jsonQuote s
  | .arr xs => "[" ++ jsonStringifyList xs ++ "]"
  | .obj fields => jsLBrace ++ jsonStringifyFields fields ++ jsRBrace

/-- Comma-separated serialization of array elements. -/
def jsonStringifyList : List Json → String
  | [] => ""
  | [x] => jsonStringify x
  | x :: y :: rest => jsonStringify x ++ "," ++ jsonStringifyList (y :: rest)

/-- Comma-separated serialization of object fields. -/
def jsonStringifyFields : List (String × Json) → String
  | [] => ""
  | [(k, v)] => jsonQuote k ++ ":" ++ jsonStringify v
  | (k, v) :: p :: rest => jsonQuote k ++ ":" ++ jsonStringify v ++ "," ++ jsonStringifyFields (p :: rest)

end

/-- The resolution environment: the credentials-file environment variable
and the precomputed well-known gcloud credentials path (undefined when
neither APPDATA nor HOME provides a config directory). -/
structure Env where
  googleApplicationCredentials : Option String
  gcloudCredentialPath : Option String

/-- Truthiness normalization of an optional environment string: a missing
or empty value is treated as unset, as JS if-tests do. -/
def envStr : Option String → Option String
  | some s => if s = "" then none else some s
  | none => none

/-- Embedding of readCredentialFile (lines 661 to 684): a read failure is
swallowed into null under ignoreMissing and otherwise wrapped as
InvalidCredential; a parse failure is always InvalidCredential. -/
def readCredentialFile (w : World) (filePath : String) (ignoreMissing : Bool) :
    Except JsError Json :=
  match w.fs filePath with
  | .error err =>
    if ignoreMissing then .ok .null
    else .error (.firebase .invalidCredential
      (("Failed to read credentials from file ") ++ filePath ++ (": ") ++ err))
  | .ok fileText =>
    match w.parse fileText with
    | .ok j => .ok j
    | .error e => .error (.firebase .invalidCredential
      (("Failed to parse contents of the credentials file as an object: ") ++ e))

/-- JS typeof check used by credentialFromFile: the parsed value has
typeof object and is not null (objects and arrays pass). -/
def typeofNonNullObject : Json → Bool
  | .obj _ => true
  | .arr _ => true
  | _ => false

/-- Embedding of credentialFromFile (lines 638 to 659). -/
def credentialFromFile (w : World) (filePath : String) : Except JsError Credential :=
  match readCredentialFile w filePath false with
  | .error e => .error e
  | .ok credentialsFile =>
    if typeofNonNullObject credentialsFile = false then
      .error (.firebase .invalidCredential
        ("Failed to parse contents of the credentials file as an object"))
    else
      match jsGet credentialsFile ("type") with
      | some (.str t) =>
        if t = "service_account" then
          serviceAccountCredentialOfInput w credentialsFile true
        else if t = "authorized_user" then
          refreshTokenCredentialOfInput w credentialsFile true
        else
          .error (.firebase .invalidCredential ("Invalid contents in the credentials file"))
      | _ => .error (.firebase .invalidCredential ("Invalid contents in the credentials file"))

/-- Embedding of getApplicationDefault (lines 547 to 561): the
environment-variable step, the well-known gcloud file step (with its JS
truthiness test on the parsed value), then the metadata credential. -/
def getApplicationDefault (w : World) (env : Env) : Except JsError Credential :=
  match envStr env.googleApplicationCredentials with
  | some p => credentialFromFile w p
  | none =>
    match envStr env.gcloudCredentialPath with
    | some gp =>
      match readCredentialFile w gp true with
      | .error e => .error e
      | .ok v =>
        if truthy v then refreshTokenCredentialOfInput w v true
        else .ok (.computeEngineCredential none)
    | none => .ok (.computeEngineCredential none)

/-- An HTTP request description as built by the credential kinds. -/
structure HttpRequestConfig where
  method : String
  url : String
  headers : List (String × String)
  data : Option String

/-- The outcome of one transport call of the HTTP client collaborator,
modelled from the spec: a 2xx response, a thrown HttpError carrying the
response, or a network error without a response. -/
inductive TransportOutcome where
  | success (resp : HttpResponse)
  | httpError (resp : HttpResponse)
  | networkError (message : String)

/-- JS string coercion of a JSON value, used when the error detail is
concatenated into a message. -/
def jsCoerce : Json → String
  | .null => "null"
  | .bool b => cond b ("true") ("false")
  | .num n => toString n
  | .str s => s
  | .arr _ => ""
  | .obj _ => "[object Object]"

/-- Embedding of getDetailFromResponse (lines 626 to 636): a JSON-shaped
body with a truthy error field yields that error (with a truthy
error_description appended in parentheses); otherwise the raw text when
non-empty; otherwise the fixed marker.  Property access on a JSON null
body throws, as in JS. -/
def getDetailFromResponse (response : HttpResponse) : Except JsError String :=
  match response.jsonBody with
  | some j => do
    let errField ← jsGetE j ("error")
    if truthyO errField then do
      let desc ← jsGetE j ("error_description")
      if truthyO desc then
        pure (jsCoerce (errField.getD .null) ++ " (" ++ jsCoerce (desc.getD .null) ++ ")")
      else
        pure (jsCoerce (errField.getD .null))
    else
      pure (if response.text = "" then "Missing error payload" else response.text)
  | none =>
    pure (if response.text = "" then "Missing error payload" else response.text)

/-- Embedding of getErrorMessage (lines 616 to 619). -/
def getErrorMessage (err : JsError) : Except JsError String :=
  match err with
  | .http resp => (getDetailFromResponse resp).map (fun d => ("Error fetching access token: ") ++ d)
  | e => pure (("Error fetching access token: ") ++ messageOf e)

/-- Embedding of requestAccessToken (lines 598 to 611): on transport
success the parsed body must have truthy access_token and expires_in
fields; every failure of the attempt is wrapped by the catch handler into
an InvalidCredential error built from getErrorMessage. -/
def requestAccessToken (outcome : TransportOutcome) : Except JsError Json :=
  let attempt : Except JsError Json :=
    match outcome with
    | .success resp =>
      match resp.jsonBody with
      | some json => do
        let tokenField ← jsGetE json ("access_token")
        if truthyO tokenField = false then
          .error (.firebase .invalidCredential
            (("Unexpected response while fetching access token: ") ++ jsonStringify json))
        else do
          let expiresField ← jsGetE json ("expires_in")
          if truthyO expiresField = false then
            .error (.firebase .invalidCredential
              (("Unexpected response while fetching access token: ") ++ jsonStringify json))
          else
            .ok json
      | none => .error (.generic ("Error while parsing response data"))
    | .httpError resp => .error (.http resp)
    | .networkError m => .error (.generic m)
  match attempt with
  | .ok j => .ok j
  | .error e =>
    match getErrorMessage e with
    | .ok msg => .error (.firebase .invalidCredential msg)
    | .error e2 => .error e2

/-- Google OAuth token audience (credential.ts line 29). -/
def GOOGLE_TOKEN_AUDIENCE : String := "https://accounts.google.com/o/oauth2/token"

/-- Google OAuth token host (line 30). -/
def GOOGLE_AUTH_TOKEN_HOST : String := "accounts.google.com"

/-- Google OAuth token path (line 31). -/
def GOOGLE_AUTH_TOKEN_PATH : String := "/o/oauth2/token"

/-- Metadata service host (line 34). -/
def GOOGLE_METADATA_SERVICE_HOST : String := "metadata.google.internal"

/-- Metadata service token path (line 35). -/
def GOOGLE_METADATA_SERVICE_TOKEN_PATH : String :=
  "/computeMetadata/v1/instance/service-accounts/default/token"

/-- Metadata service project-id path (line 36). -/
def GOOGLE_METADATA_SERVICE_PROJECT_ID_PATH : String :=
  "/computeMetadata/v1/project/project-id"

/-- Refresh-token exchange host (line 52). -/
def REFRESH_TOKEN_HOST : String := "www.googleapis.com"

/-- Refresh-token exchange path (line 53). -/
def REFRESH_TOKEN_PATH : String := "/oauth2/v4/token"

/-- One hour in seconds (line 55). -/
def ONE_HOUR_IN_SECONDS : Int := 60 * 60

/-- JWT signing algorithm constant (line 56). -/
def JWT_ALGORITHM : String := "RS256"

/-- The five OAuth scopes joined by spaces (lines 323 to 329). -/
def authScopes : List String :=
  ["https://www.googleapis.com/auth/cloud-platform",
   "https://www.googleapis.com/auth/firebase.database",
   "https://www.googleapis.com/auth/firebase.messaging",
   "https://www.googleapis.com/auth/identitytoolkit",
   "https://www.googleapis.com/auth/userinfo.email"]

/-- Options record passed to the signer collaborator. -/
structure JwtSignOptions where
  audience : String
  expiresIn : Int
  issuer : String
  algorithm : String

/-- A signed assertion as produced by the signer collaborator. -/
structure SignedJwt where
  claims : Json
  audience : String
  issuer : String
  iat : Int
  exp : Int
  algorithm : String
  key : String

/-- Modelled from the spec: the jsonwebtoken signer collaborator.  It
records the claims, options and signing key in the assertion; the issued
and expiry timestamps satisfy exp = iat + expiresIn. -/
def jwtSign (claims : Json) (key : String) (options : JwtSignOptions) (now : Int) : SignedJwt :=
  { claims := claims,
    audience := options.audience,
    issuer := options.issuer,
    iat := now,
    exp := now + options.expiresIn,
    algorithm := options.algorithm,
    key := key }

/-- Embedding of ServiceAccountCredential.createAuthJwt_ (lines 321 to
341). -/
def createAuthJwt (record : ServiceAccountRec) (now : Int) : SignedJwt :=
  jwtSign (.obj [("scope", .str (String.intercalate (" ") authScopes))]) record.privateKey
    { audience := GOOGLE_TOKEN_AUDIENCE,
      expiresIn := ONE_HOUR_IN_SECONDS,
      issuer := record.clientEmail,
      algorithm := JWT_ALGORITHM } now

/-- Percent-encoding of the colon character, the only encoding applied in
the literal form body of the service-account exchange. -/
def encodeColons (s : String) : String :=
  String.join (s.toList.map (fun c => if c = ':' then "%3A" else String.singleton c))

/-- The POST request built by ServiceAccountCredential.getAccessToken
(lines 305 to 319); ser is the token-serialization side of the signer
collaborator. -/
def saRequest (ser : SignedJwt → String) (record : ServiceAccountRec) (now : Int) :
    HttpRequestConfig :=
  { method := "POST",
    url := ("https://") ++ GOOGLE_AUTH_TOKEN_HOST ++ GOOGLE_AUTH_TOKEN_PATH,
    headers := [("Content-Type", "application/x-www-form-urlencoded")],
    data := some (("grant_type=urn%3Aietf%3Aparams%3Aoauth%3A") ++
      ("grant-type%3Ajwt-bearer&assertion=") ++ ser (createAuthJwt record now)) }

/-- Embedding of ServiceAccountCredential.getAccessToken. -/
def saGetAccessToken (transport : HttpRequestConfig → TransportOutcome)
    (ser : SignedJwt → String) (record : ServiceAccountRec) (now : Int) :
    Except JsError Json :=
  requestAccessToken (transport (saRequest ser record now))

/-- The POST request built by RefreshTokenCredential.getAccessToken
(lines 482 to 498). -/
def rtRequest (record : RefreshTokenRec) : HttpRequestConfig :=
  { method := "POST",
    url := ("https://") ++ REFRESH_TOKEN_HOST ++ REFRESH_TOKEN_PATH,
    headers := [("Content-Type", "application/x-www-form-urlencoded")],
    data := some (("client_id=") ++ record.clientId ++ ("&client_secret=") ++
      record.clientSecret ++ ("&refresh_token=") ++ record.refreshToken ++
      ("&grant_type=refresh_token")) }

/-- Embedding of RefreshTokenCredential.getAccessToken. -/
def rtGetAccessToken (transport : HttpRequestConfig → TransportOutcome)
    (record : RefreshTokenRec) : Except JsError Json :=
  requestAccessToken (transport (rtRequest record))

/-- Embedding of ComputeEngineCredential.buildRequest (lines 441 to 450). -/
def ceBuildRequest (urlPath : String) : HttpRequestConfig :=
  { method := "GET",
    url := ("http://") ++ GOOGLE_METADATA_SERVICE_HOST ++ urlPath,
    headers := [("Metadata-Flavor", "Google")],
    data := none }

/-- Embedding of ComputeEngineCredential.getAccessToken (lines 417 to
420). -/
def ceGetAccessToken (transport : HttpRequestConfig → TransportOutcome) :
    Except JsError Json :=
  requestAccessToken (transport (ceBuildRequest GOOGLE_METADATA_SERVICE_TOKEN_PATH))

/-- JS truthiness of the cached projectId field (undefined or a string). -/
def truthyOptStr : Option String → Bool
  | some s => s ≠ ""
  | none => false

/-- Embedding of ComputeEngineCredential.getProjectId (lines 422 to 439)
as a state transformer on the cached projectId field.  The result is the
call outcome, the new cached state, and the number of network calls the
invocation issued. -/
def ceGetProjectId (transport : HttpRequestConfig → TransportOutcome)
    (projectId : Option String) :
    Except JsError String × Option String × Nat :=
  if truthyOptStr projectId then
    (.ok (projectId.getD ("")), projectId, 0)
  else
    match transport (ceBuildRequest GOOGLE_METADATA_SERVICE_PROJECT_ID_PATH) with
    | .success resp => (.ok resp.text, some resp.text, 1)
    | .httpError resp =>
      match getDetailFromResponse resp with
      | .ok d =>
        (.error (.firebase .invalidCredential (("Failed to determine project ID: ") ++ d)),
          projectId, 1)
      | .error e => (.error e, projectId, 1)
    | .networkError m =>
      (.error (.firebase .invalidCredential (("Failed to determine project ID: ") ++ m)),
        projectId, 1)

/-- Which of the two keyed factories of CredentialService a call targets. -/
inductive FactoryKind where
  | cert
  | refreshTokenFactory

/-- One call to CredentialService.cert or CredentialService.refreshToken;
the input is the record-or-path argument (a string input is a path). -/
structure FactoryCall where
  kind : FactoryKind
  input : Json

/-- The process-wide memoization tables (lines 59 to 60): serialized
input to instance, plus a fresh-instance counter modelling reference
identity of the constructed credential objects. -/
structure CredStore where
  certCreds : List (String × Nat)
  refreshTokenCreds : List (String × Nat)
  nextId : Nat

/-- The empty tables at process start. -/
def initialStore : CredStore :=
  { certCreds := [], refreshTokenCreds := [], nextId := 0 }

/-- The table a factory kind uses. -/
def tableOf (st : CredStore) : FactoryKind → List (String × Nat)
  | .cert => st.certCreds
  | .refreshTokenFactory => st.refreshTokenCreds

/-- First-match lookup in a memoization table. -/
def findVal : List (String × Nat) → String → Option Nat
  | [], _ => none
  | (k, v) :: rest, key => if k = key then some v else findVal rest key

/-- The constructor a factory call runs on a cache miss (lines 219 to 225
and 260 to 267; the implicit flag defaults to false for explicit
construction). -/
def mkCredentialForCall (w : World) (c : FactoryCall) : Except JsError Credential :=
  match c.kind with
  | .cert => serviceAccountCredentialOfInput w c.input false
  | .refreshTokenFactory => refreshTokenCredentialOfInput w c.input false

/-- Embedding of one factory call: stringify the input, return the cached
instance when the key is present, otherwise construct and insert a fresh
instance.  Entries are never removed. -/
def factoryStep (w : World) (st : CredStore) (c : FactoryCall) :
    Except JsError (CredStore × Nat) :=
  let key := jsonStringify c.input
  match findVal (tableOf st c.kind) key with
  | some id => .ok (st, id)
  | none =>
    match mkCredentialForCall w c with
    | .error e => .error e
    | .ok _cred =>
      match c.kind with
      | .cert =>
        .ok ({ certCreds := (key, st.nextId) :: st.certCreds,
               refreshTokenCreds := st.refreshTokenCreds,
               nextId := st.nextId + 1 }, st.nextId)
      | .refreshTokenFactory =>
        .ok ({ certCreds := st.certCreds,
               refreshTokenCreds := (key, st.nextId) :: st.refreshTokenCreds,
               nextId := st.nextId + 1 }, st.nextId)

/-- Run a sequence of factory calls in one process, collecting the
returned instances. -/
def runFactory (w : World) : CredStore → List FactoryCall → Except JsError (CredStore × List Nat)
  | st, [] => .ok (st, [])
  | st, c :: cs =>
    match factoryStep w st c with
    | .error e => .error e
    | .ok (st1, id) =>
      match runFactory w st1 cs with
      | .error e => .error e
      | .ok (st2, ids) => .ok (st2, id :: ids)

/-- All instance identities recorded in the two tables. -/
def storeIds (st : CredStore) : List Nat :=
  st.certCreds.map Prod.snd ++ st.refreshTokenCreds.map Prod.snd

/-- Store well-formedness: every recorded instance predates the counter
and no instance is recorded twice. -/
def storeWf (st : CredStore) : Prop :=
  (∀ i ∈ storeIds st, i < st.nextId) ∧ (storeIds st).Nodup

/-- Store extension: lookups are preserved (entries are never evicted). -/
def storeLe (st st2 : CredStore) : Prop :=
  ∀ f k i, findVal (tableOf st f) k = some i → findVal (tableOf st2 f) k = some i

/-- Substring containment, used to state that a failure message carries a
given detail. -/
def strContains (s sub : String) : Prop := ∃ pre post, s = pre ++ sub ++ post

/-- A JSON record whose type field says service_account but which is not
a valid service-account record. -/
def saTypeOnlyJson : Json := .obj [(("type"), Json.str ("service_account"))]

/-- Process state for the C1 counterexample: the environment variable
points at a file whose JSON has the service_account type and nothing
else. -/
def c1World : World :=
  { fs := fun _ => .ok ("text"),
    parse := fun _ => .ok saTypeOnlyJson,
    pem := fun _ => none }

/-- Environment with the credentials-file variable set. -/
def c1Env : Env :=
  { googleApplicationCredentials := some ("/creds.json"), gcloudCredentialPath := none }

/-- A complete, valid service-account credentials file content. -/
def adSaJson : Json :=
  .obj [(("type"), Json.str ("service_account")),
        (("project_id"), Json.str ("proj")),
        (("private_key"), Json.str ("pemkey")),
        (("client_email"), Json.str ("sa@example.com"))]

/-- Process state for the C1 witness: the environment variable points at
a valid service-account file. -/
def c1wWorld : World :=
  { fs := fun _ => .ok ("text"),
    parse := fun _ => .ok adSaJson,
    pem := fun _ => none }

/-- Process state for the C2 counterexample: no environment variable, and
the well-known gcloud file parses to an empty object. -/
def c2World : World :=
  { fs := fun _ => .ok ("text"),
    parse := fun _ => .ok (.obj []),
    pem := fun _ => none }

/-- Environment with only the well-known gcloud path available. -/
def c2Env : Env :=
  { googleApplicationCredentials := none,
    gcloudCredentialPath := some ("/home/user/.config/gcloud/application_default_credentials.json") }

/-- A complete, valid authorized-user credentials file content. -/
def rtValidJson : Json :=
  .obj [(("client_id"), Json.str ("cid")),
        (("client_secret"), Json.str ("cs")),
        (("refresh_token"), Json.str ("rt")),
        (("type"), Json.str ("authorized_user"))]

/-- Process state for the C2 witness: the well-known gcloud file holds a
valid refresh-token record. -/
def c2wWorld : World :=
  { fs := fun _ => .ok ("text"),
    parse := fun _ => .ok rtValidJson,
    pem := fun _ => none }

/-- A world whose file system and parser always fail, for claims that do
not touch them. -/
def w0 : World :=
  { fs := fun _ => .error ("ENOENT: no such file or directory"),
    parse := fun _ => .error ("Unexpected token"),
    pem := fun _ => none }

/-- Process state for the C10 witness: reading the well-known file fails
with a permission error on an existing file. -/
def c10World : World :=
  { fs := fun _ => .error ("EACCES: permission denied"),
    parse := fun _ => .ok Json.null,
    pem := fun _ => none }

/-- Environment for the C10 witness. -/
def c10Env : Env :=
  { googleApplicationCredentials := none,
    gcloudCredentialPath := some ("/home/user/.config/gcloud/application_default_credentials.json") }

/-- The mocked successful token body of the spec test. -/
def tok1Json : Json := .obj [(("access_token"), Json.str ("tok1")), (("expires_in"), Json.num 3600)]

/-- The mocked successful token response. -/
def tok1Resp : HttpResponse := { status := 200, text := "", jsonBody := some tok1Json }

/-- A body that contains both required fields, with expires_in zero. -/
def tokenZeroJson : Json := .obj [(("access_token"), Json.str ("tok")), (("expires_in"), Json.num 0)]

/-- The response carrying tokenZeroJson. -/
def tokenZeroResp : HttpResponse := { status := 200, text := "", jsonBody := some tokenZeroJson }

/-- An error body whose error field is present with an empty value. -/
def errEmptyJson : Json := .obj [(("error"), Json.str (""))]

/-- The response carrying errEmptyJson with non-empty raw text. -/
def errEmptyResp : HttpResponse := { status := 400, text := "raw body", jsonBody := some errEmptyJson }

/-- The invalid_grant error body of the spec test. -/
def invalidGrantJson : Json :=
  .obj [(("error"), Json.str ("invalid_grant")), (("error_description"), Json.str ("Bad Request"))]

/-- The HTTP 400 response carrying invalidGrantJson. -/
def invalidGrantResp : HttpResponse := { status := 400, text := "body", jsonBody := some invalidGrantJson }

/-- A metadata transport whose project-id response text is empty. -/
def c9EmptyTransport : HttpRequestConfig → TransportOutcome :=
  fun _ => .success { status := 200, text := "", jsonBody := none }

/-- A metadata transport whose project-id response text is proj1. -/
def c9GoodTransport : HttpRequestConfig → TransportOutcome :=
  fun _ => .success { status := 200, text := "proj1", jsonBody := none }

/-- A valid inline service-account record for the factory witness. -/
def wSaJson : Json :=
  .obj [(("project_id"), Json.str ("p")),
        (("private_key"), Json.str ("k")),
        (("client_email"), Json.str ("e"))]

/-- A second, structurally different service-account record. -/
def wSaJson2 : Json :=
  .obj [(("project_id"), Json.str ("q")),
        (("private_key"), Json.str ("k")),
        (("client_email"), Json.str ("e"))]

/-- A valid inline refresh-token record for the factory witness. -/
def wRtJson : Json :=
  .obj [(("client_id"), Json.str ("a")),
        (("client_secret"), Json.str ("b")),
        (("refresh_token"), Json.str ("c")),
        (("type"), Json.str ("user"))]

/-- The factory-call trace of the C7 witness: the same record twice, a
different record, then a refresh-token record. -/
def wTrace : List FactoryCall :=
  [{ kind := .cert, input := wSaJson },
   { kind := .cert, input := wSaJson },
   { kind := .cert, input := wSaJson2 },
   { kind := .refreshTokenFactory, input := wRtJson }]

/-- The store after running the C7 witness trace. -/
def wStore : CredStore :=
  { certCreds := [(jsonStringify wSaJson2, 1), (jsonStringify wSaJson, 0)],
    refreshTokenCreds := [(jsonStringify wRtJson, 2)],
    nextId := 3 }

theorem copyAttr_notNull (t : List (String × Json)) (j : Json) (key alt : String)
    (h : j ≠ Json.null) :
    copyAttr t j key alt = .ok (match resolvedAttr j key alt with
      | some v => setField t key v
      | none => t) := by
  cases j with
  | null => exact absurd rfl h
  | bool b => cases hx : resolvedAttr (Json.bool b) key alt <;> simp [copyAttr, hx]
  | num n => cases hx : resolvedAttr (Json.num n) key alt <;> simp [copyAttr, hx]
  | str s => cases hx : resolvedAttr (Json.str s) key alt <;> simp [copyAttr, hx]
  | arr xs => cases hx : resolvedAttr (Json.arr xs) key alt <;> simp [copyAttr, hx]
  | obj fields => cases hx : resolvedAttr (Json.obj fields) key alt <;> simp [copyAttr, hx]

theorem copyAttr_resolved_some (t : List (String × Json)) (j : Json) (key alt : String)
    (v : Json) (h : j ≠ Json.null) (hr : resolvedAttr j key alt = some v) :
    copyAttr t j key alt = .ok (setField t key v) := by
  rw [copyAttr_notNull t j key alt h, hr]

theorem copyAttr_resolved_none (t : List (String × Json)) (j : Json) (key alt : String)
    (h : j ≠ Json.null) (hr : resolvedAttr j key alt = none) :
    copyAttr t j key alt = .ok t := by
  rw [copyAttr_notNull t j key alt h, hr]

theorem lookupField_setField_same (l : List (String × Json)) (key : String) (v : Json) :
    lookupField (setField l key v) key = some v := by
  induction l with
  | nil => simp [setField, lookupField]
  | cons p rest ih =>
    obtain ⟨k, w⟩ := p
    by_cases hk : k = key
    · simp [setField, hk, lookupField]
    · simp [setField, hk, lookupField, ih]

theorem lookupField_setField_ne (l : List (String × Json)) (key k2 : String) (v : Json)
    (h : k2 ≠ key) :
    lookupField (setField l key v) k2 = lookupField l k2 := by
  induction l with
  | nil => simp [setField, lookupField, Ne.symm h]
  | cons p rest ih =>
    obtain ⟨k, w⟩ := p
    by_cases hk : k = key
    · subst hk
      simp [setField, lookupField, h, Ne.symm h]
    · simp [setField, hk, lookupField, ih]

theorem except_map_ok {α β : Type} (f : α → β) (e : Except JsError α) (y : β)
    (h : Except.map f e = .ok y) : ∃ x, e = .ok x ∧ y = f x := by
  cases e with
  | ok x =>
    refine ⟨x, rfl, ?_⟩
    simp [Except.map] at h
    exact h.symm
  | error e2 => simp [Except.map] at h

theorem except_map_error {α β : Type} (f : α → β) (e : Except JsError α) (err : JsError)
    (h : Except.map f e = .error err) : e = .error err := by
  cases e with
  | ok x => simp [Except.map] at h
  | error e2 => simp [Except.map] at h; simp [h]

theorem jsGet_some_obj (j : Json) (k : String) (v : Json) (h : jsGet j k = some v) :
    ∃ fields, j = Json.obj fields := by
  cases j <;> simp [jsGet] at h
  exact ⟨_, rfl⟩

theorem refreshTokenOfJson_null :
    refreshTokenOfJson Json.null =
      .error (.typeError ("Cannot read properties of null reading clientId")) := rfl

theorem refreshTokenOfJson_eq (j : Json) (h : j ≠ Json.null) :
    refreshTokenOfJson j =
      (if isNonEmptyString (resolvedAttr j ("clientId") ("client_id")) = false then
        .error (.firebase .invalidCredential ("Refresh token must contain a \"client_id\" property."))
      else if isNonEmptyString (resolvedAttr j ("clientSecret") ("client_secret")) = false then
        .error (.firebase .invalidCredential ("Refresh token must contain a \"client_secret\" property."))
      else if isNonEmptyString (resolvedAttr j ("refreshToken") ("refresh_token")) = false then
        .error (.firebase .invalidCredential ("Refresh token must contain a \"refresh_token\" property."))
      else if isNonEmptyString (resolvedAttr j ("type") ("type")) = false then
        .error (.firebase .invalidCredential ("Refresh token must contain a \"type\" property."))
      else
        .ok { clientId := strOf (resolvedAttr j ("clientId") ("client_id")),
              clientSecret := strOf (resolvedAttr j ("clientSecret") ("client_secret")),
              refreshToken := strOf (resolvedAttr j ("refreshToken") ("refresh_token")),
              type := strOf (resolvedAttr j ("type") ("type")) }) := by
  rcases h1 : resolvedAttr j ("clientId") ("client_id") with _ | v1 <;>
  rcases h2 : resolvedAttr j ("clientSecret") ("client_secret") with _ | v2 <;>
  rcases h3 : resolvedAttr j ("refreshToken") ("refresh_token") with _ | v3 <;>
  rcases h4 : resolvedAttr j ("type") ("type") with _ | v4 <;>
  simp +decide [refreshTokenOfJson, copyAttr_notNull _ _ _ _ h, h1, h2, h3, h4,
    lookupField_setField_same, lookupField_setField_ne, lookupField, setField,
    Bind.bind, Except.bind]

theorem json_obj_ne_null (fields : List (String × Json)) : Json.obj fields ≠ Json.null := by
  simp

theorem serviceAccountOfJson_eq (pem : String → Option String) (fields : List (String × Json)) :
    serviceAccountOfJson pem (Json.obj fields) =
      (if isNonEmptyString (resolvedAttr (Json.obj fields) ("projectId") ("project_id")) = false then
        .error (.firebase .invalidCredential ("Service account object must contain a string \"project_id\" property."))
      else if isNonEmptyString (resolvedAttr (Json.obj fields) ("privateKey") ("private_key")) = false then
        .error (.firebase .invalidCredential ("Service account object must contain a string \"private_key\" property."))
      else if isNonEmptyString (resolvedAttr (Json.obj fields) ("clientEmail") ("client_email")) = false then
        .error (.firebase .invalidCredential ("Service account object must contain a string \"client_email\" property."))
      else
        match pem (strOf (resolvedAttr (Json.obj fields) ("privateKey") ("private_key"))) with
        | some perr => .error (.firebase .invalidCredential (("Failed to parse private key: ") ++ perr))
        | none =>
          .ok { projectId := strOf (resolvedAttr (Json.obj fields) ("projectId") ("project_id")),
                privateKey := strOf (resolvedAttr (Json.obj fields) ("privateKey") ("private_key")),
                clientEmail := strOf (resolvedAttr (Json.obj fields) ("clientEmail") ("client_email")) }) := by
  rcases h1 : resolvedAttr (Json.obj fields) ("projectId") ("project_id") with _ | v1 <;>
  rcases h2 : resolvedAttr (Json.obj fields) ("privateKey") ("private_key") with _ | v2 <;>
  rcases h3 : resolvedAttr (Json.obj fields) ("clientEmail") ("client_email") with _ | v3 <;>
  simp +decide [serviceAccountOfJson, isNonNullObject,
    copyAttr_notNull _ _ _ _ (json_obj_ne_null fields), h1, h2, h3,
    lookupField_setField_same, lookupField_setField_ne, lookupField, setField,
    Bind.bind, Except.bind]

theorem serviceAccountOfJson_shape (pem : String → Option String) (j : Json) :
    (∃ r, serviceAccountOfJson pem j = .ok r) ∨
    (∃ m, serviceAccountOfJson pem j = .error (.firebase .invalidCredential m)) := by
  cases j with
  | obj fields =>
    rw [serviceAccountOfJson_eq]
    split_ifs
    · exact Or.inr ⟨_, rfl⟩
    · exact Or.inr ⟨_, rfl⟩
    · exact Or.inr ⟨_, rfl⟩
    · cases hp : pem (strOf (resolvedAttr (Json.obj fields) ("privateKey") ("private_key"))) with
      | some perr => exact Or.inr ⟨_, rfl⟩
      | none => exact Or.inl ⟨_, rfl⟩
  | null => exact Or.inr ⟨_, rfl⟩
  | bool b => exact Or.inr ⟨_, rfl⟩
  | num n => exact Or.inr ⟨_, rfl⟩
  | str s => exact Or.inr ⟨_, rfl⟩
  | arr xs => exact Or.inr ⟨_, rfl⟩

theorem refreshTokenOfJson_shape (j : Json) (h : j ≠ Json.null) :
    (∃ r, refreshTokenOfJson j = .ok r) ∨
    (∃ m, refreshTokenOfJson j = .error (.firebase .invalidCredential m)) := by
  rw [refreshTokenOfJson_eq j h]
  split_ifs
  · exact Or.inr ⟨_, rfl⟩
  · exact Or.inr ⟨_, rfl⟩
  · exact Or.inr ⟨_, rfl⟩
  · exact Or.inr ⟨_, rfl⟩
  · exact Or.inl ⟨_, rfl⟩

theorem refreshTokenOfJson_ok_iff (j : Json) (h : j ≠ Json.null) :
    (∃ r, refreshTokenOfJson j = .ok r) ↔ rtFieldsOk j = true := by
  rw [refreshTokenOfJson_eq j h]
  unfold rtFieldsOk
  split_ifs with g1 g2 g3 g4 <;> simp_all

theorem refreshTokenOfJson_ok_truthy (v : Json) (r : RefreshTokenRec)
    (h : refreshTokenOfJson v = .ok r) : truthy v = true := by
  cases v with
  | obj fields => rfl
  | arr xs => rfl
  | null => exact Except.noConfusion (refreshTokenOfJson_null.symm.trans h)
  | bool b =>
    rw [refreshTokenOfJson_eq (Json.bool b) (by simp)] at h
    simp [resolvedAttr, jsGet, isNonEmptyString, truthyO] at h
  | num n =>
    rw [refreshTokenOfJson_eq (Json.num n) (by simp)] at h
    simp [resolvedAttr, jsGet, isNonEmptyString, truthyO] at h
  | str s =>
    rw [refreshTokenOfJson_eq (Json.str s) (by simp)] at h
    simp [resolvedAttr, jsGet, isNonEmptyString, truthyO] at h

theorem serviceAccountFromPath_err (w : World) (s : String) (e : JsError)
    (h : serviceAccountFromPath w s = .error e) :
    ∃ m, e = .firebase .invalidCredential m := by
  simp only [serviceAccountFromPath] at h
  split at h
  · exact Except.noConfusion h
  · injection h with h2
    exact ⟨_, h2.symm⟩

theorem refreshTokenFromPath_err (w : World) (s : String) (e : JsError)
    (h : refreshTokenFromPath w s = .error e) :
    ∃ m, e = .firebase .invalidCredential m := by
  simp only [refreshTokenFromPath] at h
  split at h
  · exact Except.noConfusion h
  · injection h with h2
    exact ⟨_, h2.symm⟩

theorem saCredOfInput_cases (w : World) (input : Json) (impl : Bool) :
    (∃ r, serviceAccountCredentialOfInput w input impl = .ok (.serviceAccountCredential r impl)) ∨
    (∃ m, serviceAccountCredentialOfInput w input impl = .error (.firebase .invalidCredential m)) := by
  cases input with
  | str s =>
    cases hp : serviceAccountFromPath w s with
    | ok r => exact Or.inl ⟨r, by simp [serviceAccountCredentialOfInput, hp, Except.map]⟩
    | error e =>
      obtain ⟨m, hm⟩ := serviceAccountFromPath_err w s e hp
      exact Or.inr ⟨m, by simp [serviceAccountCredentialOfInput, hp, Except.map, hm]⟩
  | null =>
    rcases serviceAccountOfJson_shape w.pem Json.null with ⟨r, hr⟩ | ⟨m, hm⟩
    · exact Or.inl ⟨r, by simp [serviceAccountCredentialOfInput, hr, Except.map]⟩
    · exact Or.inr ⟨m, by simp [serviceAccountCredentialOfInput, hm, Except.map]⟩
  | bool b =>
    rcases serviceAccountOfJson_shape w.pem (Json.bool b) with ⟨r, hr⟩ | ⟨m, hm⟩
    · exact Or.inl ⟨r, by simp [serviceAccountCredentialOfInput, hr, Except.map]⟩
    · exact Or.inr ⟨m, by simp [serviceAccountCredentialOfInput, hm, Except.map]⟩
  | num n =>
    rcases serviceAccountOfJson_shape w.pem (Json.num n) with ⟨r, hr⟩ | ⟨m, hm⟩
    · exact Or.inl ⟨r, by simp [serviceAccountCredentialOfInput, hr, Except.map]⟩
    · exact Or.inr ⟨m, by simp [serviceAccountCredentialOfInput, hm, Except.map]⟩
  | arr xs =>
    rcases serviceAccountOfJson_shape w.pem (Json.arr xs) with ⟨r, hr⟩ | ⟨m, hm⟩
    · exact Or.inl ⟨r, by simp [serviceAccountCredentialOfInput, hr, Except.map]⟩
    · exact Or.inr ⟨m, by simp [serviceAccountCredentialOfInput, hm, Except.map]⟩
  | obj fields =>
    rcases serviceAccountOfJson_shape w.pem (Json.obj fields) with ⟨r, hr⟩ | ⟨m, hm⟩
    · exact Or.inl ⟨r, by simp [serviceAccountCredentialOfInput, hr, Except.map]⟩
    · exact Or.inr ⟨m, by simp [serviceAccountCredentialOfInput, hm, Except.map]⟩

theorem rtCredOfInput_cases (w : World) (input : Json) (impl : Bool) (h : input ≠ Json.null) :
    (∃ r, refreshTokenCredentialOfInput w input impl = .ok (.refreshTokenCredential r impl)) ∨
    (∃ m, refreshTokenCredentialOfInput w input impl = .error (.firebase .invalidCredential m)) := by
  cases input with
  | str s =>
    cases hp : refreshTokenFromPath w s with
    | ok r => exact Or.inl ⟨r, by simp [refreshTokenCredentialOfInput, hp, Except.map]⟩
    | error e =>
      obtain ⟨m, hm⟩ := refreshTokenFromPath_err w s e hp
      exact Or.inr ⟨m, by simp [refreshTokenCredentialOfInput, hp, Except.map, hm]⟩
  | null => exact absurd rfl h
  | bool b =>
    rcases refreshTokenOfJson_shape (Json.bool b) (by simp) with ⟨r, hr⟩ | ⟨m, hm⟩
    · exact Or.inl ⟨r, by simp [refreshTokenCredentialOfInput, hr, Except.map]⟩
    · exact Or.inr ⟨m, by simp [refreshTokenCredentialOfInput, hm, Except.map]⟩
  | num n =>
    rcases refreshTokenOfJson_shape (Json.num n) (by simp) with ⟨r, hr⟩ | ⟨m, hm⟩
    · exact Or.inl ⟨r, by simp [refreshTokenCredentialOfInput, hr, Except.map]⟩
    · exact Or.inr ⟨m, by simp [refreshTokenCredentialOfInput, hm, Except.map]⟩
  | arr xs =>
    rcases refreshTokenOfJson_shape (Json.arr xs) (by simp) with ⟨r, hr⟩ | ⟨m, hm⟩
    · exact Or.inl ⟨r, by simp [refreshTokenCredentialOfInput, hr, Except.map]⟩
    · exact Or.inr ⟨m, by simp [refreshTokenCredentialOfInput, hm, Except.map]⟩
  | obj fields =>
    rcases refreshTokenOfJson_shape (Json.obj fields) (by simp) with ⟨r, hr⟩ | ⟨m, hm⟩
    · exact Or.inl ⟨r, by simp [refreshTokenCredentialOfInput, hr, Except.map]⟩
    · exact Or.inr ⟨m, by simp [refreshTokenCredentialOfInput, hm, Except.map]⟩

theorem readCredentialFile_read_error (w : World) (p : String) (e : String)
    (hf : w.fs p = .error e) :
    readCredentialFile w p true = .ok Json.null := by
  simp [readCredentialFile, hf]

theorem readCredentialFile_parse_error (w : World) (p : String) (im : Bool) (t e : String)
    (hf : w.fs p = .ok t) (hp : w.parse t = .error e) :
    readCredentialFile w p im = .error (.firebase .invalidCredential
      (("Failed to parse contents of the credentials file as an object: ") ++ e)) := by
  simp [readCredentialFile, hf, hp]

theorem readCredentialFile_parse_ok (w : World) (p : String) (im : Bool) (t : String) (j : Json)
    (hf : w.fs p = .ok t) (hp : w.parse t = .ok j) :
    readCredentialFile w p im = .ok j := by
  simp [readCredentialFile, hf, hp]

theorem readCredentialFile_err_cases (w : World) (p : String) (e : JsError)
    (h : readCredentialFile w p true = .error e) :
    ∃ t pe m, w.fs p = .ok t ∧ w.parse t = .error pe ∧ e = .firebase .invalidCredential m := by
  unfold readCredentialFile at h
  cases hf : w.fs p with
  | error err => simp [hf] at h
  | ok t =>
    simp only [hf] at h
    cases hp : w.parse t with
    | ok j => simp only [hp] at h; exact Except.noConfusion h
    | error pe =>
      simp only [hp] at h
      injection h with h2
      exact ⟨t, pe, _, rfl, hp, h2.symm⟩

theorem readCredentialFile_err_invCred (w : World) (p : String) (im : Bool) (e : JsError)
    (h : readCredentialFile w p im = .error e) :
    ∃ m, e = .firebase .invalidCredential m := by
  unfold readCredentialFile at h
  cases hf : w.fs p with
  | error err =>
    simp only [hf] at h
    cases im with
    | true => simp at h
    | false =>
      simp only [Bool.false_eq_true, if_false] at h
      injection h with h2
      exact ⟨_, h2.symm⟩
  | ok t =>
    simp only [hf] at h
    cases hp : w.parse t with
    | ok j => simp only [hp] at h; exact Except.noConfusion h
    | error pe =>
      simp only [hp] at h
      injection h with h2
      exact ⟨_, h2.symm⟩

theorem saCredOfInput_ok_shape (w : World) (input : Json) (impl : Bool) (cred : Credential)
    (h : serviceAccountCredentialOfInput w input impl = .ok cred) :
    ∃ r, cred = .serviceAccountCredential r impl := by
  cases input with
  | str s =>
    simp only [serviceAccountCredentialOfInput] at h
    obtain ⟨x, hx, hc⟩ := except_map_ok _ _ _ h
    exact ⟨x, hc⟩
  | null =>
    simp only [serviceAccountCredentialOfInput] at h
    obtain ⟨x, hx, hc⟩ := except_map_ok _ _ _ h
    exact ⟨x, hc⟩
  | bool b =>
    simp only [serviceAccountCredentialOfInput] at h
    obtain ⟨x, hx, hc⟩ := except_map_ok _ _ _ h
    exact ⟨x, hc⟩
  | num n =>
    simp only [serviceAccountCredentialOfInput] at h
    obtain ⟨x, hx, hc⟩ := except_map_ok _ _ _ h
    exact ⟨x, hc⟩
  | arr xs =>
    simp only [serviceAccountCredentialOfInput] at h
    obtain ⟨x, hx, hc⟩ := except_map_ok _ _ _ h
    exact ⟨x, hc⟩
  | obj fields =>
    simp only [serviceAccountCredentialOfInput] at h
    obtain ⟨x, hx, hc⟩ := except_map_ok _ _ _ h
    exact ⟨x, hc⟩

theorem rtCredOfInput_ok_shape (w : World) (input : Json) (impl : Bool) (cred : Credential)
    (h : refreshTokenCredentialOfInput w input impl = .ok cred) :
    ∃ r, cred = .refreshTokenCredential r impl := by
  cases input with
  | str s =>
    simp only [refreshTokenCredentialOfInput] at h
    obtain ⟨x, hx, hc⟩ := except_map_ok _ _ _ h
    exact ⟨x, hc⟩
  | null =>
    simp only [refreshTokenCredentialOfInput] at h
    obtain ⟨x, hx, hc⟩ := except_map_ok _ _ _ h
    exact ⟨x, hc⟩
  | bool b =>
    simp only [refreshTokenCredentialOfInput] at h
    obtain ⟨x, hx, hc⟩ := except_map_ok _ _ _ h
    exact ⟨x, hc⟩
  | num n =>
    simp only [refreshTokenCredentialOfInput] at h
    obtain ⟨x, hx, hc⟩ := except_map_ok _ _ _ h
    exact ⟨x, hc⟩
  | arr xs =>
    simp only [refreshTokenCredentialOfInput] at h
    obtain ⟨x, hx, hc⟩ := except_map_ok _ _ _ h
    exact ⟨x, hc⟩
  | obj fields =>
    simp only [refreshTokenCredentialOfInput] at h
    obtain ⟨x, hx, hc⟩ := except_map_ok _ _ _ h
    exact ⟨x, hc⟩

theorem credentialFromFile_ok_shape (w : World) (p : String) (cred : Credential)
    (h : credentialFromFile w p = .ok cred) :
    (∃ r, cred = .serviceAccountCredential r true) ∨ (∃ r, cred = .refreshTokenCredential r true) := by
  unfold credentialFromFile at h
  cases hr : readCredentialFile w p false with
  | error e => simp only [hr] at h; exact Except.noConfusion h
  | ok cf =>
    simp only [hr] at h
    by_cases hobj : typeofNonNullObject cf = false
    · rw [if_pos hobj] at h; exact Except.noConfusion h
    · rw [if_neg hobj] at h
      split at h
      · rename_i t ht
        by_cases hsa : t = "service_account"
        · rw [if_pos hsa] at h
          exact Or.inl (saCredOfInput_ok_shape w cf true cred h)
        · rw [if_neg hsa] at h
          by_cases hau : t = "authorized_user"
          · rw [if_pos hau] at h
            exact Or.inr (rtCredOfInput_ok_shape w cf true cred h)
          · rw [if_neg hau] at h; exact Except.noConfusion h
      · exact Except.noConfusion h

theorem saCredOfInput_err_invCred (w : World) (input : Json) (impl : Bool) (e : JsError)
    (h : serviceAccountCredentialOfInput w input impl = .error e) :
    ∃ m, e = .firebase .invalidCredential m := by
  rcases saCredOfInput_cases w input impl with ⟨r, hr⟩ | ⟨m, hm⟩
  · rw [h] at hr; exact Except.noConfusion hr
  · rw [h] at hm
    injection hm with h2
    exact ⟨m, h2⟩

theorem rtCredOfInput_err_invCred (w : World) (input : Json) (impl : Bool) (e : JsError)
    (hn : input ≠ Json.null)
    (h : refreshTokenCredentialOfInput w input impl = .error e) :
    ∃ m, e = .firebase .invalidCredential m := by
  rcases rtCredOfInput_cases w input impl hn with ⟨r, hr⟩ | ⟨m, hm⟩
  · rw [h] at hr; exact Except.noConfusion hr
  · rw [h] at hm
    injection hm with h2
    exact ⟨m, h2⟩

theorem getApplicationDefault_envSet (w : World) (env : Env) (p : String)
    (hset : envStr env.googleApplicationCredentials = some p) :
    getApplicationDefault w env = credentialFromFile w p := by
  simp [getApplicationDefault, hset]

theorem credentialFromFile_parsed (w : World) (p t : String) (j : Json)
    (hft : w.fs p = .ok t) (hpt : w.parse t = .ok j) :
    credentialFromFile w p =
      (if typeofNonNullObject j = false then
        .error (.firebase .invalidCredential
          ("Failed to parse contents of the credentials file as an object"))
      else match jsGet j ("type") with
        | some (.str ty) =>
          if ty = "service_account" then serviceAccountCredentialOfInput w j true
          else if ty = "authorized_user" then refreshTokenCredentialOfInput w j true
          else .error (.firebase .invalidCredential ("Invalid contents in the credentials file"))
        | _ => .error (.firebase .invalidCredential ("Invalid contents in the credentials file"))) := by
  unfold credentialFromFile
  rw [readCredentialFile_parse_ok w p false t j hft hpt]

theorem credentialFromFile_err_invCred (w : World) (p : String) (e : JsError)
    (h : credentialFromFile w p = .error e) :
    ∃ m, e = .firebase .invalidCredential m := by
  unfold credentialFromFile at h
  cases hr : readCredentialFile w p false with
  | error e2 =>
    simp only [hr] at h
    injection h with h2
    exact readCredentialFile_err_invCred w p false e (h2 ▸ hr)
  | ok cf =>
    simp only [hr] at h
    by_cases hobj : typeofNonNullObject cf = false
    · rw [if_pos hobj] at h
      injection h with h2
      exact ⟨_, h2.symm⟩
    · rw [if_neg hobj] at h
      split at h
      · rename_i t ht
        by_cases hsa : t = "service_account"
        · rw [if_pos hsa] at h
          exact saCredOfInput_err_invCred w cf true e h
        · rw [if_neg hsa] at h
          by_cases hau : t = "authorized_user"
          · rw [if_pos hau] at h
            obtain ⟨fields, rfl⟩ := jsGet_some_obj cf _ _ ht
            exact rtCredOfInput_err_invCred w _ true e (json_obj_ne_null fields) h
          · rw [if_neg hau] at h
            injection h with h2
            exact ⟨_, h2.symm⟩
      · injection h with h2
        exact ⟨_, h2.symm⟩

/-- C1: when the environment-specified credentials-file path is set,
application-default resolution reads and parses that file; a read
failure, a parse failure, or an unrecognized type all fail with
InvalidCredential; a service_account type dispatches to implicit
ServiceAccountCredential construction and an authorized_user type to
implicit RefreshTokenCredential construction (each of which itself fails
with InvalidCredential on an invalid record); resolution never falls
through to the later discovery steps, every success being one of the two
implicit credentials and every failure an InvalidCredential error. -/
theorem getApplicationDefault_env_path_set (w : World) (env : Env) (p : String)
    (hset : envStr env.googleApplicationCredentials = some p) :
    getApplicationDefault w env = credentialFromFile w p ∧
    (∀ e, w.fs p = .error e →
      ∃ m, getApplicationDefault w env = .error (.firebase .invalidCredential m)) ∧
    (∀ t e, w.fs p = .ok t → w.parse t = .error e →
      ∃ m, getApplicationDefault w env = .error (.firebase .invalidCredential m)) ∧
    (∀ t j, w.fs p = .ok t → w.parse t = .ok j →
      jsGet j ("type") = some (.str ("service_account")) →
      getApplicationDefault w env =
        (serviceAccountOfJson w.pem j).map (fun r => .serviceAccountCredential r true)) ∧
    (∀ t j, w.fs p = .ok t → w.parse t = .ok j →
      jsGet j ("type") = some (.str ("authorized_user")) →
      getApplicationDefault w env =
        (refreshTokenOfJson j).map (fun r => .refreshTokenCredential r true)) ∧
    (∀ t j s, w.fs p = .ok t → w.parse t = .ok j → jsGet j ("type") = some (.str s) →
      s ≠ "service_account" → s ≠ "authorized_user" →
      getApplicationDefault w env =
        .error (.firebase .invalidCredential ("Invalid contents in the credentials file"))) ∧
    (∀ cred, getApplicationDefault w env = .ok cred →
      (∃ r, cred = .serviceAccountCredential r true) ∨
      (∃ r, cred = .refreshTokenCredential r true)) ∧
    (∀ e, getApplicationDefault w env = .error e →
      ∃ m, e = .firebase .invalidCredential m) := by
  have hga := getApplicationDefault_envSet w env p hset
  refine ⟨hga, ?_, ?_, ?_, ?_, ?_, ?_, ?_⟩
  · intro e hfe
    rw [hga]
    unfold credentialFromFile
    unfold readCredentialFile
    rw [hfe]
    exact ⟨_, rfl⟩
  · intro t e hft hpt
    rw [hga]
    unfold credentialFromFile
    rw [readCredentialFile_parse_error w p false t e hft hpt]
    exact ⟨_, rfl⟩
  · intro t j hft hpt hty
    rw [hga, credentialFromFile_parsed w p t j hft hpt]
    obtain ⟨fields, rfl⟩ := jsGet_some_obj j _ _ hty
    rw [hty]
    simp [typeofNonNullObject, serviceAccountCredentialOfInput]
  · intro t j hft hpt hty
    rw [hga, credentialFromFile_parsed w p t j hft hpt]
    obtain ⟨fields, rfl⟩ := jsGet_some_obj j _ _ hty
    rw [hty]
    simp [typeofNonNullObject, refreshTokenCredentialOfInput]
  · intro t j s hft hpt hty hs1 hs2
    rw [hga, credentialFromFile_parsed w p t j hft hpt]
    obtain ⟨fields, rfl⟩ := jsGet_some_obj j _ _ hty
    rw [hty]
    simp [typeofNonNullObject, hs1, hs2]
  · intro cred hok
    rw [hga] at hok
    exact credentialFromFile_ok_shape w p cred hok
  · intro e herr
    rw [hga] at herr
    exact credentialFromFile_err_invCred w p e herr

/-- C1 counterexample: with the environment path set and the file parsing
to an object whose type is service_account but which is not a valid
record, resolution throws InvalidCredential instead of returning an
implicit ServiceAccountCredential, refuting the claim that a matching
type always yields a credential. -/
theorem getApplicationDefault_env_path_counterexample :
    jsGet saTypeOnlyJson ("type") = some (.str ("service_account")) ∧
    getApplicationDefault c1World c1Env =
      .error (.firebase .invalidCredential
        ("Service account object must contain a string \"project_id\" property.")) :=
  ⟨rfl, rfl⟩

/-- C1 witness: a concrete process state with the environment path set
and a valid service-account file, on which resolution returns the
implicit ServiceAccountCredential. -/
theorem getApplicationDefault_env_path_witness :
    envStr c1Env.googleApplicationCredentials = some ("/creds.json") ∧
    getApplicationDefault c1wWorld c1Env =
      .ok (.serviceAccountCredential
        { projectId := "proj", privateKey := "pemkey", clientEmail := "sa@example.com" } true) := by
  have h := getApplicationDefault_env_path_set c1wWorld c1Env ("/creds.json") (by rfl)
  have h4 := h.2.2.2.1 ("text") adSaJson rfl rfl rfl
  refine ⟨rfl, ?_⟩
  rw [h4]
  rfl

theorem getApplicationDefault_gcloud_eq (w : World) (env : Env) (gp : String)
    (h1 : envStr env.googleApplicationCredentials = none)
    (h2 : envStr env.gcloudCredentialPath = some gp) :
    getApplicationDefault w env =
      (match readCredentialFile w gp true with
      | .error e => .error e
      | .ok v =>
        if truthy v then refreshTokenCredentialOfInput w v true
        else .ok (.computeEngineCredential none)) := by
  simp [getApplicationDefault, h1, h2]

/-- C2: when the environment variable is unset and the well-known gcloud
path is available, a file-read failure silently skips the step and
resolution returns the metadata-service credential; a parse failure
fails with InvalidCredential; parsed truthy contents dispatch to
implicit RefreshTokenCredential construction (which fails with
InvalidCredential when the contents are not a valid refresh-token
record, and succeeds with the implicit credential when they are); parsed
falsy contents are silently skipped like a missing file. -/
theorem getApplicationDefault_wellKnown_file (w : World) (env : Env) (gp : String)
    (h1 : envStr env.googleApplicationCredentials = none)
    (h2 : envStr env.gcloudCredentialPath = some gp) :
    (∀ e, w.fs gp = .error e →
      getApplicationDefault w env = .ok (.computeEngineCredential none)) ∧
    (∀ t e, w.fs gp = .ok t → w.parse t = .error e →
      getApplicationDefault w env = .error (.firebase .invalidCredential
        (("Failed to parse contents of the credentials file as an object: ") ++ e))) ∧
    (∀ t v, w.fs gp = .ok t → w.parse t = .ok v → truthy v = true →
      getApplicationDefault w env = refreshTokenCredentialOfInput w v true) ∧
    (∀ t v, w.fs gp = .ok t → w.parse t = .ok v → truthy v = false →
      getApplicationDefault w env = .ok (.computeEngineCredential none)) ∧
    (∀ t v r, w.fs gp = .ok t → w.parse t = .ok v → (∀ s, v ≠ .str s) →
      refreshTokenOfJson v = .ok r →
      getApplicationDefault w env = .ok (.refreshTokenCredential r true)) := by
  have hga := getApplicationDefault_gcloud_eq w env gp h1 h2
  refine ⟨?_, ?_, ?_, ?_, ?_⟩
  · intro e hfe
    rw [hga, readCredentialFile_read_error w gp e hfe]
    rfl
  · intro t e hft hpt
    rw [hga, readCredentialFile_parse_error w gp true t e hft hpt]
  · intro t v hft hpt htr
    rw [hga, readCredentialFile_parse_ok w gp true t v hft hpt]
    simp [htr]
  · intro t v hft hpt htr
    rw [hga, readCredentialFile_parse_ok w gp true t v hft hpt]
    simp [htr]
  · intro t v r hft hpt hnstr hok
    have htr := refreshTokenOfJson_ok_truthy v r hok
    rw [hga, readCredentialFile_parse_ok w gp true t v hft hpt]
    simp only [htr, if_true]
    cases v with
    | str s => exact absurd rfl (hnstr s)
    | null => exact Except.noConfusion (refreshTokenOfJson_null.symm.trans hok)
    | bool b => simp only [refreshTokenCredentialOfInput]; rw [hok]; rfl
    | num n => simp only [refreshTokenCredentialOfInput]; rw [hok]; rfl
    | arr xs => simp only [refreshTokenCredentialOfInput]; rw [hok]; rfl
    | obj fields => simp only [refreshTokenCredentialOfInput]; rw [hok]; rfl

/-- C2 counterexample: the well-known file parses successfully to an
empty object, yet resolution fails with InvalidCredential instead of
returning an implicit RefreshTokenCredential, refuting the claim that a
successful parse always yields the credential. -/
theorem getApplicationDefault_wellKnown_counterexample :
    c2World.parse ("text") = .ok (.obj []) ∧
    getApplicationDefault c2World c2Env =
      .error (.firebase .invalidCredential
        ("Refresh token must contain a \"client_id\" property.")) :=
  ⟨rfl, rfl⟩

/-- C2 witness: a concrete process state whose well-known file holds a
valid refresh-token record, on which resolution returns the implicit
RefreshTokenCredential. -/
theorem getApplicationDefault_wellKnown_witness :
    getApplicationDefault c2wWorld c2Env =
      .ok (.refreshTokenCredential
        { clientId := "cid", clientSecret := "cs", refreshToken := "rt",
          type := "authorized_user" } true) := by
  have h := getApplicationDefault_wellKnown_file c2wWorld c2Env
    ("/home/user/.config/gcloud/application_default_credentials.json") rfl rfl
  exact h.2.2.2.2 ("text") rtValidJson _ rfl rfl (fun s => by simp [rtValidJson]) rfl

/-- C10: with ignoreMissing set, the well-known credentials-file step is
silently skipped on every file-read failure, permission errors and
missing files alike, and the only InvalidCredential failure this step
can produce is a read that succeeds followed by a parse failure; under
an unset environment variable, any read failure of the well-known file
makes resolution return the metadata-service credential. -/
theorem readCredentialFile_skip_on_read_error (w : World) (p : String) :
    (∀ e, w.fs p = .error e → readCredentialFile w p true = .ok Json.null) ∧
    (∀ t e, w.fs p = .ok t → w.parse t = .error e →
      readCredentialFile w p true = .error (.firebase .invalidCredential
        (("Failed to parse contents of the credentials file as an object: ") ++ e))) ∧
    (∀ r, readCredentialFile w p true = .error r →
      ∃ t e m, w.fs p = .ok t ∧ w.parse t = .error e ∧
        r = .firebase .invalidCredential m) ∧
    (∀ env, envStr env.googleApplicationCredentials = none →
      envStr env.gcloudCredentialPath = some p →
      (∃ e, w.fs p = .error e) →
      getApplicationDefault w env = .ok (.computeEngineCredential none)) := by
  refine ⟨?_, ?_, ?_, ?_⟩
  · intro e hfe
    exact readCredentialFile_read_error w p e hfe
  · intro t e hft hpt
    exact readCredentialFile_parse_error w p true t e hft hpt
  · intro r hr
    exact readCredentialFile_err_cases w p r hr
  · rintro env h1 h2 ⟨e, he⟩
    rw [getApplicationDefault_gcloud_eq w env p h1 h2,
      readCredentialFile_read_error w p e he]
    rfl

/-- C10 witness: a permission-denied error on the existing well-known
file is skipped exactly like a missing file, and resolution falls
through to the metadata-service credential. -/
theorem readCredentialFile_skip_on_read_error_witness :
    readCredentialFile c10World
      ("/home/user/.config/gcloud/application_default_credentials.json") true = .ok Json.null ∧
    getApplicationDefault c10World c10Env = .ok (.computeEngineCredential none) := by
  have h := readCredentialFile_skip_on_read_error c10World
    ("/home/user/.config/gcloud/application_default_credentials.json")
  exact ⟨h.1 ("EACCES: permission denied") rfl,
    h.2.2.2 c10Env rfl rfl ⟨("EACCES: permission denied"), rfl⟩⟩

theorem rtCredOfInput_ok_record (w : World) (j : Json) (impl : Bool) (cred : Credential)
    (hnstr : ∀ s, j ≠ Json.str s)
    (h : refreshTokenCredentialOfInput w j impl = .ok cred) :
    ∃ r, refreshTokenOfJson j = .ok r ∧ cred = .refreshTokenCredential r impl := by
  cases j with
  | str s => exact absurd rfl (hnstr s)
  | null =>
    simp only [refreshTokenCredentialOfInput] at h
    obtain ⟨x, hx, hc⟩ := except_map_ok _ _ _ h
    exact ⟨x, hx, hc⟩
  | bool b =>
    simp only [refreshTokenCredentialOfInput] at h
    obtain ⟨x, hx, hc⟩ := except_map_ok _ _ _ h
    exact ⟨x, hx, hc⟩
  | num n =>
    simp only [refreshTokenCredentialOfInput] at h
    obtain ⟨x, hx, hc⟩ := except_map_ok _ _ _ h
    exact ⟨x, hx, hc⟩
  | arr xs =>
    simp only [refreshTokenCredentialOfInput] at h
    obtain ⟨x, hx, hc⟩ := except_map_ok _ _ _ h
    exact ⟨x, hx, hc⟩
  | obj fields =>
    simp only [refreshTokenCredentialOfInput] at h
    obtain ⟨x, hx, hc⟩ := except_map_ok _ _ _ h
    exact ⟨x, hx, hc⟩

theorem rtCredOfInput_of_record (w : World) (j : Json) (impl : Bool) (r : RefreshTokenRec)
    (hnstr : ∀ s, j ≠ Json.str s) (hok : refreshTokenOfJson j = .ok r) :
    refreshTokenCredentialOfInput w j impl = .ok (.refreshTokenCredential r impl) := by
  cases j with
  | str s => exact absurd rfl (hnstr s)
  | null => exact Except.noConfusion (refreshTokenOfJson_null.symm.trans hok)
  | bool b => simp only [refreshTokenCredentialOfInput]; rw [hok]; rfl
  | num n => simp only [refreshTokenCredentialOfInput]; rw [hok]; rfl
  | arr xs => simp only [refreshTokenCredentialOfInput]; rw [hok]; rfl
  | obj fields => simp only [refreshTokenCredentialOfInput]; rw [hok]; rfl

/-- C3: RefreshTokenCredential construction on a non-null, non-path
record input succeeds exactly when the four required fields (canonical
or snake_case, resolved by copyAttr) are non-empty strings, and every
failure on such input is an InvalidCredential error; a path input also
fails only with InvalidCredential; a null record input, however, fails
with a raw TypeError from copyAttr rather than with InvalidCredential,
because the constructor performs no non-null-object check. -/
theorem refreshTokenCredential_construction (w : World) (impl : Bool) :
    (refreshTokenCredentialOfInput w Json.null impl =
      .error (.typeError ("Cannot read properties of null reading clientId"))) ∧
    (∀ j : Json, (∀ s, j ≠ Json.str s) → j ≠ Json.null →
      ((∃ r, refreshTokenCredentialOfInput w j impl = .ok (.refreshTokenCredential r impl)) ↔
        rtFieldsOk j = true) ∧
      (∀ e, refreshTokenCredentialOfInput w j impl = .error e →
        ∃ m, e = .firebase .invalidCredential m)) ∧
    (∀ s e, refreshTokenCredentialOfInput w (.str s) impl = .error e →
      ∃ m, e = .firebase .invalidCredential m) := by
  refine ⟨rfl, ?_, ?_⟩
  · intro j hnstr hnnull
    constructor
    · constructor
      · rintro ⟨r, hr⟩
        obtain ⟨x, hx, hc⟩ := rtCredOfInput_ok_record w j impl _ hnstr hr
        exact (refreshTokenOfJson_ok_iff j hnnull).mp ⟨x, hx⟩
      · intro hfok
        obtain ⟨r, hr⟩ := (refreshTokenOfJson_ok_iff j hnnull).mpr hfok
        exact ⟨r, rtCredOfInput_of_record w j impl r hnstr hr⟩
    · intro e he
      exact rtCredOfInput_err_invCred w j impl e hnnull he
  · intro s e he
    simp only [refreshTokenCredentialOfInput] at he
    exact refreshTokenFromPath_err w s e (except_map_error _ _ _ he)

/-- C3 counterexample: a null record input makes RefreshTokenCredential
construction fail with a TypeError, not with InvalidCredential, refuting
the claim that a non-object input fails with InvalidCredential. -/
theorem refreshTokenCredential_null_counterexample :
    refreshTokenCredentialOfInput w0 Json.null false =
      .error (.typeError ("Cannot read properties of null reading clientId")) ∧
    isInvalidCredentialError (refreshTokenCredentialOfInput w0 Json.null false) = false :=
  ⟨rfl, rfl⟩

/-- C3 witness: a valid refresh-token record constructs successfully,
and an empty object fails with InvalidCredential. -/
theorem refreshTokenCredential_construction_witness :
    (∃ r, refreshTokenCredentialOfInput w0 rtValidJson false =
      .ok (.refreshTokenCredential r false)) ∧
    (∃ m, refreshTokenCredentialOfInput w0 (.obj []) false =
      .error (.firebase .invalidCredential m)) := by
  have h := refreshTokenCredential_construction w0 false
  constructor
  · exact ((h.2.1 rtValidJson (fun s => by simp [rtValidJson]) (by simp [rtValidJson])).1).mpr rfl
  · exact ⟨("Refresh token must contain a \"client_id\" property."), rfl⟩

theorem jsGetE_notNull (json : Json) (jn : json ≠ Json.null) (k : String) :
    jsGetE json k = .ok (jsGet json k) := by
  cases json with
  | null => exact absurd rfl jn
  | bool b => simp [jsGetE]
  | num n => simp [jsGetE]
  | str s => simp [jsGetE]
  | arr xs => simp [jsGetE]
  | obj fields => simp [jsGetE]

theorem requestAccessToken_success_null (resp : HttpResponse)
    (hbody : resp.jsonBody = some Json.null) :
    requestAccessToken (.success resp) = .error (.firebase .invalidCredential
      (("Error fetching access token: ") ++
        (("Cannot read properties of null reading ") ++ ("access_token")))) := by
  simp [requestAccessToken, hbody, jsGetE, Bind.bind, Except.bind, getErrorMessage, messageOf,
    pure, Except.pure]

theorem requestAccessToken_success_notNull (resp : HttpResponse) (json : Json)
    (hbody : resp.jsonBody = some json) (jn : json ≠ Json.null) :
    requestAccessToken (.success resp) =
      (if truthyO (jsGet json ("access_token")) = false then
        .error (.firebase .invalidCredential (("Error fetching access token: ") ++
          (("Unexpected response while fetching access token: ") ++ jsonStringify json)))
      else if truthyO (jsGet json ("expires_in")) = false then
        .error (.firebase .invalidCredential (("Error fetching access token: ") ++
          (("Unexpected response while fetching access token: ") ++ jsonStringify json)))
      else .ok json) := by
  simp only [requestAccessToken, hbody, jsGetE_notNull json jn, Bind.bind, Except.bind]
  by_cases h1 : truthyO (jsGet json ("access_token")) = false
  · simp [h1, getErrorMessage, messageOf, pure, Except.pure]
  · by_cases h2 : truthyO (jsGet json ("expires_in")) = false
    · simp [h1, h2, getErrorMessage, messageOf, pure, Except.pure]
    · simp [h1, h2]

/-- C4: on transport success with a parsed JSON body, the exchange
resolves to the body exactly when both access_token and expires_in are
present with truthy values (a present but zero expires_in or empty
access_token is rejected); otherwise it fails with InvalidCredential;
and the mocked transport returning the tok1 body makes getAccessToken of
each of the three credential kinds resolve to that body. -/
theorem requestAccessToken_response_fields (resp : HttpResponse) (json : Json)
    (hbody : resp.jsonBody = some json) :
    ((requestAccessToken (.success resp) = .ok json) ↔
      (truthyO (jsGet json ("access_token")) = true ∧
        truthyO (jsGet json ("expires_in")) = true)) ∧
    (¬(truthyO (jsGet json ("access_token")) = true ∧
        truthyO (jsGet json ("expires_in")) = true) →
      ∃ m, requestAccessToken (.success resp) = .error (.firebase .invalidCredential m)) ∧
    (∀ transport ser record now, (∀ req, transport req = .success tok1Resp) →
      saGetAccessToken transport ser record now = .ok tok1Json) ∧
    (∀ transport record, (∀ req, transport req = .success tok1Resp) →
      rtGetAccessToken transport record = .ok tok1Json) ∧
    (∀ transport, (∀ req, transport req = .success tok1Resp) →
      ceGetAccessToken transport = .ok tok1Json) := by
  refine ⟨?_, ?_, ?_, ?_, ?_⟩
  · by_cases jn : json = Json.null
    · subst jn
      rw [requestAccessToken_success_null resp hbody]
      simp [jsGet, truthyO]
    · rw [requestAccessToken_success_notNull resp json hbody jn]
      by_cases h1 : truthyO (jsGet json ("access_token")) = false
      · simp [h1]
      · by_cases h2 : truthyO (jsGet json ("expires_in")) = false
        · simp [h1, h2]
        · simp [h1, h2]
  · intro hno
    by_cases jn : json = Json.null
    · subst jn
      rw [requestAccessToken_success_null resp hbody]
      exact ⟨_, rfl⟩
    · rw [requestAccessToken_success_notNull resp json hbody jn]
      by_cases h1 : truthyO (jsGet json ("access_token")) = false
      · rw [if_pos h1]
        exact ⟨_, rfl⟩
      · by_cases h2 : truthyO (jsGet json ("expires_in")) = false
        · rw [if_neg h1, if_pos h2]
          exact ⟨_, rfl⟩
        · exact absurd ⟨Bool.not_eq_false _ |>.mp h1, Bool.not_eq_false _ |>.mp h2⟩ hno
  · intro transport ser record now hmock
    show requestAccessToken (transport (saRequest ser record now)) = .ok tok1Json
    rw [hmock]
    rfl
  · intro transport record hmock
    show requestAccessToken (transport (rtRequest record)) = .ok tok1Json
    rw [hmock]
    rfl
  · intro transport hmock
    show requestAccessToken (transport (ceBuildRequest GOOGLE_METADATA_SERVICE_TOKEN_PATH)) = .ok tok1Json
    rw [hmock]
    rfl

/-- C4 counterexample: a body containing both access_token and a zero
expires_in is rejected with InvalidCredential even though both fields
are present, refuting the biconditional on field presence. -/
theorem requestAccessToken_present_zero_counterexample :
    (jsGet tokenZeroJson ("access_token")).isSome = true ∧
    (jsGet tokenZeroJson ("expires_in")).isSome = true ∧
    requestAccessToken (.success tokenZeroResp) =
      .error (.firebase .invalidCredential (("Error fetching access token: ") ++
        (("Unexpected response while fetching access token: ") ++ jsonStringify tokenZeroJson))) :=
  ⟨rfl, rfl, rfl⟩

/-- C4 witness: the tok1 body resolves, and the three credential kinds
resolve to it under a mocked transport. -/
theorem requestAccessToken_response_fields_witness :
    requestAccessToken (.success tok1Resp) = .ok tok1Json ∧
    ceGetAccessToken (fun _ => .success tok1Resp) = .ok tok1Json := by
  have h := requestAccessToken_response_fields tok1Resp tok1Json rfl
  exact ⟨h.1.mpr ⟨rfl, rfl⟩, h.2.2.2.2 (fun _ => .success tok1Resp) (fun _ => rfl)⟩

/-- C5: for a failed transport call, the InvalidCredential failure
message is built from a detail computed as follows: a JSON-shaped error
body with a truthy error value yields that value, appending a truthy
error_description in parentheses; otherwise the non-empty raw response
text; otherwise the fixed missing-error-payload marker.  In particular
an HTTP 400 response with the invalid_grant body produces a failure
message containing invalid_grant (Bad Request). -/
theorem tokenExchange_error_detail :
    (∀ resp : HttpResponse, ∀ j : Json, resp.jsonBody = some j → j ≠ Json.null →
      (truthyO (jsGet j ("error")) = true → truthyO (jsGet j ("error_description")) = true →
        getDetailFromResponse resp = .ok (jsCoerce ((jsGet j ("error")).getD .null) ++ " (" ++
          jsCoerce ((jsGet j ("error_description")).getD .null) ++ ")")) ∧
      (truthyO (jsGet j ("error")) = true → truthyO (jsGet j ("error_description")) = false →
        getDetailFromResponse resp = .ok (jsCoerce ((jsGet j ("error")).getD .null))) ∧
      (truthyO (jsGet j ("error")) = false → resp.text ≠ "" →
        getDetailFromResponse resp = .ok resp.text) ∧
      (truthyO (jsGet j ("error")) = false → resp.text = "" →
        getDetailFromResponse resp = .ok ("Missing error payload"))) ∧
    (∀ resp : HttpResponse, resp.jsonBody = none → resp.text ≠ "" →
      getDetailFromResponse resp = .ok resp.text) ∧
    (∀ resp : HttpResponse, resp.jsonBody = none → resp.text = "" →
      getDetailFromResponse resp = .ok ("Missing error payload")) ∧
    (∀ resp d, getDetailFromResponse resp = .ok d →
      requestAccessToken (.httpError resp) =
        .error (.firebase .invalidCredential (("Error fetching access token: ") ++ d))) ∧
    (∀ m, requestAccessToken (.networkError m) =
      .error (.firebase .invalidCredential (("Error fetching access token: ") ++ m))) ∧
    (requestAccessToken (.httpError invalidGrantResp) =
      .error (.firebase .invalidCredential
        ("Error fetching access token: invalid_grant (Bad Request)"))) ∧
    strContains ("Error fetching access token: invalid_grant (Bad Request)")
      ("invalid_grant (Bad Request)") := by
  refine ⟨?_, ?_, ?_, ?_, ?_, ?_, ?_⟩
  · intro resp j hb jn
    refine ⟨?_, ?_, ?_, ?_⟩
    · intro he hd
      simp [getDetailFromResponse, hb, jsGetE_notNull j jn, Bind.bind, Except.bind,
        he, hd, pure, Except.pure]
    · intro he hd
      simp [getDetailFromResponse, hb, jsGetE_notNull j jn, Bind.bind, Except.bind,
        he, hd, pure, Except.pure]
    · intro he ht
      simp [getDetailFromResponse, hb, jsGetE_notNull j jn, Bind.bind, Except.bind,
        he, ht, pure, Except.pure]
    · intro he ht
      simp [getDetailFromResponse, hb, jsGetE_notNull j jn, Bind.bind, Except.bind,
        he, ht, pure, Except.pure]
  · intro resp hb ht
    simp [getDetailFromResponse, hb, ht, pure, Except.pure]
  · intro resp hb ht
    simp [getDetailFromResponse, hb, ht, pure, Except.pure]
  · intro resp d hd
    simp [requestAccessToken, getErrorMessage, hd, Except.map]
  · intro m
    rfl
  · rfl
  · exact ⟨("Error fetching access token: "), (""), rfl⟩

/-- C5 counterexample: a JSON error body whose error field is present
with an empty value makes the detail fall through to the raw response
text, refuting the claim that the presence of an error field makes the
detail that error value. -/
theorem tokenExchange_error_detail_counterexample :
    jsGet errEmptyJson ("error") = some (.str ("")) ∧
    getDetailFromResponse errEmptyResp = .ok ("raw body") ∧
    requestAccessToken (.httpError errEmptyResp) =
      .error (.firebase .invalidCredential ("Error fetching access token: raw body")) ∧
    ("raw body" : String) ≠ "" :=
  ⟨rfl, rfl, rfl, by decide⟩

/-- C5 witness: the invalid_grant body yields the parenthesized detail,
and the empty-error body yields the raw-text detail end to end. -/
theorem tokenExchange_error_detail_witness :
    getDetailFromResponse invalidGrantResp = .ok ("invalid_grant (Bad Request)") ∧
    requestAccessToken (.httpError errEmptyResp) =
      .error (.firebase .invalidCredential ("Error fetching access token: raw body")) := by
  have h := tokenExchange_error_detail
  constructor
  · exact ((h.1 invalidGrantResp invalidGrantJson rfl (by simp [invalidGrantJson])).1
      rfl rfl).trans rfl
  · exact (h.2.2.2.1 errEmptyResp ("raw body")
      (((h.1 errEmptyResp errEmptyJson rfl (by simp [errEmptyJson])).2.2.1 rfl
        (by decide)))).trans rfl

/-- C6: for every service-account record, getAccessToken builds one
signed assertion whose claims are the fixed space-joined 5-scope list,
with the Google token audience, the record clientEmail as issuer, an
expiry of 3600 seconds after issuance, algorithm RS256, signed with the
record privateKey, and issues a POST to the fixed OAuth token host and
path whose form-encoded body is the jwt-bearer grant with that assertion. -/
theorem serviceAccountCredential_assertion (transport : HttpRequestConfig → TransportOutcome)
    (ser : SignedJwt → String) (record : ServiceAccountRec) (now : Int) :
    saGetAccessToken transport ser record now =
      requestAccessToken (transport (saRequest ser record now)) ∧
    (saRequest ser record now).method = "POST" ∧
    (saRequest ser record now).url = "https://accounts.google.com/o/oauth2/token" ∧
    (saRequest ser record now).headers = [("Content-Type", "application/x-www-form-urlencoded")] ∧
    (saRequest ser record now).data = some (("grant_type=") ++
      encodeColons ("urn:ietf:params:oauth:grant-type:jwt-bearer") ++ ("&assertion=") ++
      ser (createAuthJwt record now)) ∧
    (createAuthJwt record now).claims =
      .obj [(("scope"), .str (String.intercalate (" ") authScopes))] ∧
    authScopes.length = 5 ∧
    (createAuthJwt record now).audience = GOOGLE_TOKEN_AUDIENCE ∧
    (createAuthJwt record now).issuer = record.clientEmail ∧
    (createAuthJwt record now).exp - (createAuthJwt record now).iat = 3600 ∧
    (createAuthJwt record now).algorithm = "RS256" ∧
    (createAuthJwt record now).key = record.privateKey := by
  refine ⟨rfl, rfl, rfl, rfl, ?_, rfl, rfl, rfl, rfl, ?_, rfl, rfl⟩
  · exact congrArg (fun z => some (z ++ ser (createAuthJwt record now))) (by decide)
  · show now + ONE_HOUR_IN_SECONDS - now = 3600
    show now + (60 * 60 : Int) - now = 3600
    omega

/-- C8: copyAttr copies the canonical field when it is truthy, otherwise
copies the alternative field when it is defined, and otherwise leaves
the target unchanged; with both projectId A and project_id B present the
canonical A wins. -/
theorem copyAttr_field_preference (to_ fields : List (String × Json)) (key alt : String) :
    (truthyO (jsGet (.obj fields) key) = true →
      copyAttr to_ (.obj fields) key alt =
        .ok (setField to_ key ((jsGet (.obj fields) key).getD .null))) ∧
    (truthyO (jsGet (.obj fields) key) = false → ∀ v, jsGet (.obj fields) alt = some v →
      copyAttr to_ (.obj fields) key alt = .ok (setField to_ key v)) ∧
    (truthyO (jsGet (.obj fields) key) = false → jsGet (.obj fields) alt = none →
      copyAttr to_ (.obj fields) key alt = .ok to_) ∧
    (copyAttr [] (.obj [(("projectId"), Json.str ("A")), (("project_id"), Json.str ("B"))])
      ("projectId") ("project_id") = .ok ([(("projectId"), Json.str ("A"))])) := by
  refine ⟨?_, ?_, ?_, rfl⟩
  · intro htr
    cases hk : jsGet (Json.obj fields) key with
    | none => rw [hk] at htr; simp [truthyO] at htr
    | some v =>
      have hr : resolvedAttr (.obj fields) key alt = some v := by
        unfold resolvedAttr
        rw [if_pos htr, hk]
      rw [copyAttr_resolved_some to_ _ key alt v (json_obj_ne_null fields) hr]
      simp
  · intro htr v halt
    have hr : resolvedAttr (.obj fields) key alt = some v := by
      simp [resolvedAttr, htr, halt]
    exact copyAttr_resolved_some to_ _ key alt v (json_obj_ne_null fields) hr
  · intro htr halt
    have hr : resolvedAttr (.obj fields) key alt = none := by
      simp [resolvedAttr, htr, halt]
    exact copyAttr_resolved_none to_ _ key alt (json_obj_ne_null fields) hr

/-- C8 witness: a concrete object on which the canonical field is truthy
and gets copied. -/
theorem copyAttr_field_preference_witness :
    truthyO (jsGet (.obj [(("projectId"), Json.str ("A"))]) ("projectId")) = true ∧
    copyAttr [] (.obj [(("projectId"), Json.str ("A"))]) ("projectId") ("project_id") =
      .ok ([(("projectId"), Json.str ("A"))]) := by
  have h := copyAttr_field_preference [] [(("projectId"), Json.str ("A"))]
    ("projectId") ("project_id")
  exact ⟨rfl, (h.1 rfl).trans rfl⟩

/-- C9: after a getProjectId call succeeds with a non-empty project id,
a further call on the same instance returns the cached value with zero
network calls; a call on an uncached instance issues exactly one GET to
the fixed project-id path and caches the raw response text (an
empty-string project id is not treated as cached). -/
theorem computeEngine_getProjectId_caching (transport : HttpRequestConfig → TransportOutcome)
    (st : Option String) (pid : String) (st1 : Option String) (n : Nat)
    (h : ceGetProjectId transport st = (.ok pid, st1, n)) (hpid : pid ≠ "") :
    ceGetProjectId transport st1 = (.ok pid, st1, 0) ∧
    (st = none → n = 1) ∧
    (∀ resp, truthyOptStr st = false →
      transport (ceBuildRequest GOOGLE_METADATA_SERVICE_PROJECT_ID_PATH) = .success resp →
      pid = resp.text ∧ st1 = some resp.text ∧ n = 1) ∧
    (ceBuildRequest GOOGLE_METADATA_SERVICE_PROJECT_ID_PATH).method = "GET" ∧
    (ceBuildRequest GOOGLE_METADATA_SERVICE_PROJECT_ID_PATH).url =
      "http://metadata.google.internal/computeMetadata/v1/project/project-id" := by
  unfold ceGetProjectId at h
  by_cases hst : truthyOptStr st = true
  · rw [if_pos hst] at h
    simp only [Prod.mk.injEq, Except.ok.injEq] at h
    obtain ⟨hp, hs, hn⟩ := h
    subst hs
    refine ⟨?_, ?_, ?_, rfl, rfl⟩
    · unfold ceGetProjectId
      rw [if_pos hst, hp]
    · intro h0
      rw [h0] at hst
      simp [truthyOptStr] at hst
    · intro resp hf htr
      rw [hf] at hst
      exact absurd hst (by simp)
  · rw [if_neg hst] at h
    cases htr : transport (ceBuildRequest GOOGLE_METADATA_SERVICE_PROJECT_ID_PATH) with
    | success resp =>
      simp only [htr] at h
      simp only [Prod.mk.injEq, Except.ok.injEq] at h
      obtain ⟨hp, hs, hn⟩ := h
      subst hs
      refine ⟨?_, fun _ => hn.symm, ?_, rfl, rfl⟩
      · unfold ceGetProjectId
        have ht1 : truthyOptStr (some resp.text) = true := by
          simp only [truthyOptStr]
          rw [hp]
          exact decide_eq_true hpid
        rw [if_pos ht1]
        simp [hp]
      · intro resp2 hf htr2
        injection htr2 with hresp
        subst hresp
        exact ⟨hp.symm, rfl, hn.symm⟩
    | httpError resp =>
      simp only [htr] at h
      cases hd : getDetailFromResponse resp with
      | ok d => simp only [hd] at h; simp at h
      | error e => simp only [hd] at h; simp at h
    | networkError m =>
      simp only [htr] at h
      simp at h

/-- C9 counterexample: when the metadata service returns an empty string,
the first call succeeds yet the second call issues another network call,
because the empty cached project id is falsy; two consecutive calls
perform two network calls, refuting the exactly-one-call claim. -/
theorem computeEngine_getProjectId_counterexample :
    ceGetProjectId c9EmptyTransport none = (.ok (""), some (""), 1) ∧
    ceGetProjectId c9EmptyTransport (some ("")) = (.ok (""), some (""), 1) :=
  ⟨rfl, rfl⟩

/-- C9 witness: a non-empty project id is fetched once and served from
the cache on the second call with no network call. -/
theorem computeEngine_getProjectId_caching_witness :
    ceGetProjectId c9GoodTransport none = (.ok ("proj1"), some ("proj1"), 1) ∧
    ceGetProjectId c9GoodTransport (some ("proj1")) = (.ok ("proj1"), some ("proj1"), 0) := by
  have h := computeEngine_getProjectId_caching c9GoodTransport none ("proj1")
    (some ("proj1")) 1 rfl (by decide)
  exact ⟨rfl, h.1⟩

theorem findVal_mem (l : List (String × Nat)) (k : String) (i : Nat)
    (h : findVal l k = some i) : (k, i) ∈ l := by
  induction l with
  | nil => simp [findVal] at h
  | cons p rest ih =>
    obtain ⟨k2, v2⟩ := p
    simp only [findVal] at h
    by_cases hk : k2 = k
    · rw [if_pos hk] at h
      injection h with h2
      subst h2
      subst hk
      exact List.mem_cons_self _ _
    · rw [if_neg hk] at h
      exact List.mem_cons_of_mem _ (ih h)

theorem assoc_snd_inj (l : List (String × Nat)) (hnd : (l.map Prod.snd).Nodup)
    (k1 k2 : String) (i : Nat) (h1 : (k1, i) ∈ l) (h2 : (k2, i) ∈ l) : k1 = k2 := by
  induction l with
  | nil => simp at h1
  | cons p rest ih =>
    simp only [List.map_cons, List.nodup_cons] at hnd
    obtain ⟨hpn, hnd2⟩ := hnd
    rcases List.mem_cons.mp h1 with e1 | m1 <;> rcases List.mem_cons.mp h2 with e2 | m2
    · exact congrArg Prod.fst (e1.trans e2.symm)
    · exfalso
      apply hpn
      have hmm : i ∈ rest.map Prod.snd := List.mem_map_of_mem Prod.snd m2
      rw [← e1]
      exact hmm
    · exfalso
      apply hpn
      have hmm : i ∈ rest.map Prod.snd := List.mem_map_of_mem Prod.snd m1
      rw [← e2]
      exact hmm
    · exact ih hnd2 m1 m2

theorem storeWf_lookup_inj (st : CredStore) (hwf : storeWf st) (f1 f2 : FactoryKind)
    (k1 k2 : String) (i : Nat)
    (h1 : findVal (tableOf st f1) k1 = some i) (h2 : findVal (tableOf st f2) k2 = some i) :
    f1 = f2 ∧ k1 = k2 := by
  obtain ⟨hbound, hnd⟩ := hwf
  unfold storeIds at hnd
  rw [List.nodup_append] at hnd
  obtain ⟨hcert, href, hdis⟩ := hnd
  have m1 := findVal_mem _ _ _ h1
  have m2 := findVal_mem _ _ _ h2
  cases f1 <;> cases f2
  · exact ⟨rfl, assoc_snd_inj _ hcert k1 k2 i m1 m2⟩
  · exfalso
    have ha : i ∈ st.certCreds.map Prod.snd := List.mem_map_of_mem Prod.snd m1
    have hb : i ∈ st.refreshTokenCreds.map Prod.snd := List.mem_map_of_mem Prod.snd m2
    exact hdis ha hb
  · exfalso
    have ha : i ∈ st.certCreds.map Prod.snd := List.mem_map_of_mem Prod.snd m2
    have hb : i ∈ st.refreshTokenCreds.map Prod.snd := List.mem_map_of_mem Prod.snd m1
    exact hdis ha hb
  · exact ⟨rfl, assoc_snd_inj _ href k1 k2 i m1 m2⟩

theorem storeWf_cons_cert (st : CredStore) (key : String) (hwf : storeWf st) :
    storeWf { certCreds := (key, st.nextId) :: st.certCreds,
              refreshTokenCreds := st.refreshTokenCreds,
              nextId := st.nextId + 1 } := by
  obtain ⟨hbound, hnd⟩ := hwf
  constructor
  · intro x hx
    show x < st.nextId + 1
    simp only [storeIds, List.map_cons, List.cons_append, List.mem_cons] at hx
    rcases hx with rfl | hx
    · omega
    · have := hbound x hx
      omega
  · simp only [storeIds, List.map_cons, List.cons_append, List.nodup_cons]
    refine ⟨?_, hnd⟩
    intro hmem
    have := hbound _ hmem
    omega

theorem storeWf_cons_refresh (st : CredStore) (key : String) (hwf : storeWf st) :
    storeWf { certCreds := st.certCreds,
              refreshTokenCreds := (key, st.nextId) :: st.refreshTokenCreds,
              nextId := st.nextId + 1 } := by
  obtain ⟨hbound, hnd⟩ := hwf
  constructor
  · intro x hx
    show x < st.nextId + 1
    simp only [storeIds, List.map_cons] at hx
    rw [List.mem_append] at hx
    rcases hx with hx | hx
    · have hx2 : x ∈ storeIds st := by
        unfold storeIds
        exact List.mem_append.mpr (Or.inl hx)
      have := hbound x hx2
      omega
    · rw [List.mem_cons] at hx
      rcases hx with rfl | hx
      · omega
      · have hx2 : x ∈ storeIds st := by
          unfold storeIds
          exact List.mem_append.mpr (Or.inr hx)
        have := hbound x hx2
        omega
  · simp only [storeIds, List.map_cons]
    rw [List.nodup_middle]
    rw [List.nodup_cons]
    constructor
    · intro hmem
      have hx2 : st.nextId ∈ storeIds st := hmem
      have := hbound _ hx2
      omega
    · exact hnd

theorem factoryStep_spec (w : World) (st : CredStore) (c : FactoryCall) (st1 : CredStore) (i : Nat)
    (hwf : storeWf st) (h : factoryStep w st c = .ok (st1, i)) :
    storeWf st1 ∧ storeLe st st1 ∧
    findVal (tableOf st1 c.kind) (jsonStringify c.input) = some i := by
  unfold factoryStep at h
  cases hfind : findVal (tableOf st c.kind) (jsonStringify c.input) with
  | some id =>
    simp only [hfind, Except.ok.injEq, Prod.mk.injEq] at h
    obtain ⟨h1, h2⟩ := h
    subst h1
    subst h2
    exact ⟨hwf, fun f k j hj => hj, hfind⟩
  | none =>
    simp only [hfind] at h
    cases hmk : mkCredentialForCall w c with
    | error e => simp only [hmk] at h; exact Except.noConfusion h
    | ok cred =>
      simp only [hmk] at h
      cases hkind : c.kind with
      | cert =>
        simp only [hkind, Except.ok.injEq, Prod.mk.injEq] at h
        obtain ⟨h1, h2⟩ := h
        subst h1
        subst h2
        rw [hkind] at hfind
        refine ⟨storeWf_cons_cert st _ hwf, ?_, ?_⟩
        · intro f k j hj
          cases f with
          | cert =>
            simp only [tableOf] at hj ⊢
            simp only [findVal]
            by_cases hkk : jsonStringify c.input = k
            · rw [hkk] at hfind
              simp only [tableOf] at hfind
              rw [hfind] at hj
              exact Option.noConfusion hj
            · rw [if_neg hkk]
              exact hj
          | refreshTokenFactory => exact hj
        · simp [tableOf, findVal]
      | refreshTokenFactory =>
        simp only [hkind, Except.ok.injEq, Prod.mk.injEq] at h
        obtain ⟨h1, h2⟩ := h
        subst h1
        subst h2
        rw [hkind] at hfind
        refine ⟨storeWf_cons_refresh st _ hwf, ?_, ?_⟩
        · intro f k j hj
          cases f with
          | refreshTokenFactory =>
            simp only [tableOf] at hj ⊢
            simp only [findVal]
            by_cases hkk : jsonStringify c.input = k
            · rw [hkk] at hfind
              simp only [tableOf] at hfind
              rw [hfind] at hj
              exact Option.noConfusion hj
            · rw [if_neg hkk]
              exact hj
          | cert => exact hj
        · simp [tableOf, findVal]

theorem runFactory_spec (w : World) (cs : List FactoryCall) :
    ∀ st st2 ids, storeWf st → runFactory w st cs = .ok (st2, ids) →
    storeWf st2 ∧ storeLe st st2 ∧ ids.length = cs.length ∧
    (∀ (n : Nat) (cx : FactoryCall) (i : Nat), cs[n]? = some cx → ids[n]? = some i →
      findVal (tableOf st2 cx.kind) (jsonStringify cx.input) = some i) := by
  induction cs with
  | nil =>
    intro st st2 ids hwf h
    simp only [runFactory, Except.ok.injEq, Prod.mk.injEq] at h
    obtain ⟨h1, h2⟩ := h
    subst h1
    subst h2
    refine ⟨hwf, fun f k i hi => hi, rfl, ?_⟩
    intro n cx i hc hi
    simp at hc
  | cons c cs ih =>
    intro st st2 ids hwf h
    simp only [runFactory] at h
    cases hstep : factoryStep w st c with
    | error e => simp only [hstep] at h; exact Except.noConfusion h
    | ok p =>
      obtain ⟨st1, id⟩ := p
      simp only [hstep] at h
      cases hrun : runFactory w st1 cs with
      | error e => simp only [hrun] at h; exact Except.noConfusion h
      | ok q =>
        obtain ⟨st2b, ids2⟩ := q
        simp only [hrun, Except.ok.injEq, Prod.mk.injEq] at h
        obtain ⟨h1, h2⟩ := h
        subst h1
        subst h2
        obtain ⟨hwf1, hle1, hlook1⟩ := factoryStep_spec w st c st1 id hwf hstep
        obtain ⟨hwf2, hle2, hlen2, hlook2⟩ := ih st1 st2b ids2 hwf1 hrun
        refine ⟨hwf2, ?_, ?_, ?_⟩
        · intro f k i hi
          exact hle2 f k i (hle1 f k i hi)
        · simp [hlen2]
        · intro n cx i hc hi
          cases n with
          | zero =>
            simp only [List.getElem?_cons_zero, Option.some.injEq] at hc hi
            subst hc
            subst hi
            exact hle2 _ _ _ hlook1
          | succ n2 =>
            simp only [List.getElem?_cons_succ] at hc hi
            exact hlook2 n2 cx i hc hi

/-- C7: over any sequence of calls to the cert and refreshToken
factories in one process, two calls to the same factory return the same
instance exactly when their record-or-path inputs stringify identically;
calls with differing serializations, or to different factories, always
return distinct instances, and table entries are never evicted. -/
theorem credentialFactory_memoization (w : World) (cs : List FactoryCall)
    (st : CredStore) (ids : List Nat)
    (hrun : runFactory w initialStore cs = .ok (st, ids))
    (i j : Nat) (ci cj : FactoryCall) (ri rj : Nat)
    (hci : cs[i]? = some ci) (hcj : cs[j]? = some cj)
    (hri : ids[i]? = some ri) (hrj : ids[j]? = some rj) :
    ri = rj ↔ (ci.kind = cj.kind ∧ jsonStringify ci.input = jsonStringify cj.input) := by
  have hwf0 : storeWf initialStore := by
    constructor
    · intro x hx
      simp [storeIds, initialStore] at hx
    · simp [storeIds, initialStore]
  obtain ⟨hwf, hle, hlen, hlook⟩ := runFactory_spec w cs initialStore st ids hwf0 hrun
  have hi := hlook i ci ri hci hri
  have hj := hlook j cj rj hcj hrj
  constructor
  · intro he
    subst he
    exact storeWf_lookup_inj st hwf ci.kind cj.kind _ _ ri hi hj
  · rintro ⟨hk, hs⟩
    rw [hk, hs] at hi
    have := hi.symm.trans hj
    exact Option.some.inj this

/-- C7 witness: a concrete trace where the repeated record returns the
cached instance and the differing record returns a fresh one. -/
theorem credentialFactory_memoization_witness :
    runFactory w0 initialStore wTrace = .ok (wStore, [0, 0, 1, 2]) ∧
    ((0 : Nat) = 0 ↔ (FactoryKind.cert = FactoryKind.cert ∧
      jsonStringify wSaJson = jsonStringify wSaJson)) ∧
    ((0 : Nat) = 1 ↔ (FactoryKind.cert = FactoryKind.cert ∧
      jsonStringify wSaJson = jsonStringify wSaJson2)) := by
  refine ⟨rfl, ?_, ?_⟩
  · exact credentialFactory_memoization w0 wTrace wStore [0, 0, 1, 2] rfl 0 1 _ _ 0 0
      rfl rfl rfl rfl
  · exact credentialFactory_memoization w0 wTrace wStore [0, 0, 1, 2] rfl 1 2 _ _ 0 1
      rfl rfl rfl rfl
